import Mathlib

/-!
Verification of the `mdf-rs` on-disk page reader against its specification.

The Rust sources are shallowly embedded: byte slices become `List Nat`
(entries reduced mod 256 at every read), machine integers become `Nat`/`Int`
with explicit wrapping, and fallible code returns `PResult` which keeps a
regular `None` return apart from a panic (failed `assert!`, out-of-bounds
slice or index, `unwrap()` of `None`).
-/

namespace Mdf

/-- Result of running a Rust function that returns `Option<T>` but may also
abort: `errNone` models a returned `None`, `panic` models a panic (assertion
failure, slice out of bounds, `unwrap` of `None`, arithmetic underflow). -/
inductive PResult (α : Type) where
  | ok (a : α)
  | errNone
  | panic
deriving DecidableEq

def PResult.map {α β : Type} (f : α → β) : PResult α → PResult β
  | .ok a => .ok (f a)
  | .errNone => .errNone
  | .panic => .panic

/-- Little-endian read of `n` bytes of `data` starting at index `start`
(models `read_uNN::<LittleEndian>` applied to an in-bounds slice); each list
entry is reduced mod 256 since it stands for one byte. -/
def leAt (data : List Nat) (start : Nat) : Nat → Nat
  | 0 => 0
  | n + 1 => data.getD start 0 % 256 + 256 * leAt data (start + 1) n

/-- `data[a..b]` with the Rust bounds discipline: defined only when
`a ≤ b ≤ data.len()`, otherwise the slice expression panics. -/
def sliceOk (data : List Nat) (a b : Nat) : Option (List Nat) :=
  if a ≤ b ∧ b ≤ data.length then some ((data.drop a).take (b - a)) else none

/-! ## `record.rs` -/

/-- `RecordType` from `record.rs`. -/
inductive RecordType where
  | Primary
  | Forwarded
  | Forwarding
  | Index
  | Blob
  | GhostIndex
  | GhostData
  | GhostVersion
deriving DecidableEq

/-- `RecordType::parse`; its argument is the 3-bit field `(data[0] & 0xf) >> 1`,
so only values 0..7 occur (the Rust `unreachable!` arm cannot fire). -/
def RecordType.parseNum (num : Nat) : RecordType :=
  match num with
  | 0 => .Primary
  | 1 => .Forwarded
  | 2 => .Forwarding
  | 3 => .Index
  | 4 => .Blob
  | 5 => .GhostIndex
  | 6 => .GhostData
  | _ => .GhostVersion

/-- The variable-length column block of a record (`VarLengthColumns` in
`record.rs`): `data` starts at the variable-length column offset array. -/
structure VarLengthColumns where
  data : List Nat
  count : Nat
  base_offset : Nat
deriving DecidableEq

/-- A parsed record (`Record` in `record.rs`).  `tag_a` is the 4-bit flag
nibble `data[0] >> 4`, `tag_b` the second flag byte; `null_bitmap` holds the
raw bitmap bytes (bit `i` of the bitmap is bit `i % 8`, LSB first, of byte
`i / 8`, as in `BitSlice<Lsb0, u8>`). -/
structure Record where
  ty : RecordType
  tag_a : Nat
  tag_b : Nat
  column_count : Nat
  fixed_data : List Nat
  null_bitmap : Option (List Nat)
  var_length_columns : Option VarLengthColumns
deriving DecidableEq

/-- `Record::has_null_bitmap`: flag bit 0 of `tag_a`. -/
def Record.has_null_bitmap (r : Record) : Bool :=
  r.tag_a % 2 = 1

/-- `Record::has_var_length_columns`: flag bit 1 of `tag_a`. -/
def Record.has_var_length_columns (r : Record) : Bool :=
  r.tag_a / 2 % 2 = 1

/-- `Record::is_column_null`: `self.null_bitmap.map(|v| v[idx]).unwrap_or(false)`.
Indexing a `BitSlice` out of range panics, hence the `.panic` branch; a record
without a bitmap yields `false` for every index. -/
def Record.is_column_null (r : Record) (idx : Nat) : PResult Bool :=
  match r.null_bitmap with
  | none => .ok false
  | some bytes =>
    if idx < 8 * bytes.length then
      .ok ((bytes.getD (idx / 8) 0 % 256).testBit (idx % 8))
    else
      .panic

/-- The 3-bit record-type field of a raw record: bits 1..3 of byte 0. -/
def recTyBits (data : List Nat) : Nat :=
  data.getD 0 0 % 256 % 16 / 2

/-- The `fixed_data_length` computation of `Record::parse`: `p_min_len - 1`
on an index page (a `u16` subtraction, which aborts when `p_min_len = 0`),
otherwise the little-endian `u16` at bytes 2..4 minus 4, with the logged
`return None` when that field is below 4. -/
def recFixedLen (data : List Nat) (is_index : Bool) (p_min_len : Nat) :
    PResult Nat :=
  if is_index then
    if p_min_len = 0 then .panic else .ok (p_min_len - 1)
  else
    if data.length < 4 then .panic else
    let offs := leAt data 2 2
    if offs < 4 then .errNone else .ok (offs - 4)

/-- The null-bitmap step of `Record::parse`: when `tag_a` has
`HAS_NULL_BITMAP`, take `⌈column_count/8⌉` bytes at `offset` (panicking when
they run past the buffer) and advance the offset; otherwise no bitmap.
Returns the bitmap and the updated offset. -/
def recNullBitmap (tag_a column_count : Nat) (data : List Nat) (offset : Nat) :
    PResult (Option (List Nat) × Nat) :=
  if tag_a % 2 = 1 then
    match sliceOk data offset (offset + (column_count + 7) / 8) with
    | none => .panic
    | some bs => .ok (some bs, offset + (column_count + 7) / 8)
  else .ok (none, offset)

/-- The variable-length-column-count step of `Record::parse`: when `tag_a`
has `HAS_VAR_LENGTH_COLUMNS`, read the little-endian `u16` at `offset`
(the `unwrap` panics when fewer than two bytes remain). -/
def recVarCount (tag_a : Nat) (data : List Nat) (offset : Nat) :
    PResult (Option Nat) :=
  if tag_a / 2 % 2 = 1 then
    if data.length < offset + 2 then .panic
    else .ok (some (leAt data offset 2))
  else .ok none

/-- `Record::parse` from `record.rs`.  Every Rust bounds check, `assert!` and
`unwrap` is made explicit; `errNone` corresponds to the two logged
`return None` paths (fixed length field `< 4`, fixed-data end past the
buffer). -/
def Record.parse (data : List Nat) (is_index : Bool) (p_min_len : Nat) :
    PResult Record :=
  if data.length < 1 then .panic else
  let tag_a := data.getD 0 0 % 256 / 16
  if is_index = false ∧ data.length < 2 then .panic else
  let tag_b := if is_index then 0 else data.getD 1 0 % 256
  let ty := RecordType.parseNum (recTyBits data)
  if ¬ (ty = RecordType.Primary ∨ ty = RecordType.Index ∨ ty = RecordType.Blob)
  then .panic else
  match recFixedLen data is_index p_min_len with
  | .panic => .panic
  | .errNone => .errNone
  | .ok fixed_data_length =>
    let offset := if is_index then p_min_len else 4 + fixed_data_length
    if offset > data.length then .errNone else
    if data.length < offset + 2 then .panic else
    let column_count := leAt data offset 2
    let offset := offset + 2
    match recNullBitmap tag_a column_count data offset with
    | .panic => .panic
    | .errNone => .errNone
    | .ok (null_bitmap, offset) =>
      match recVarCount tag_a data offset with
      | .panic => .panic
      | .errNone => .errNone
      | .ok var_length_columns_count =>
        match sliceOk data 4 (fixed_data_length + 4) with
        | none => .panic
        | some fixed_data =>
          match var_length_columns_count with
          | some count =>
            if offset + 2 > data.length then .panic else
            .ok { ty := ty, tag_a := tag_a, tag_b := tag_b,
                  column_count := column_count, fixed_data := fixed_data,
                  null_bitmap := null_bitmap,
                  var_length_columns :=
                    some ⟨data.drop (offset + 2), count, offset + 2⟩ }
          | none =>
            .ok { ty := ty, tag_a := tag_a, tag_b := tag_b,
                  column_count := column_count, fixed_data := fixed_data,
                  null_bitmap := null_bitmap, var_length_columns := none }


/-! ## `raw_page.rs`: page and record pointers -/

/-- `PagePointer` from `raw_page.rs`. -/
structure PagePointer where
  page_id : Nat
  file_id : Nat
deriving DecidableEq

/-- `PagePointer::parse`: six little-endian bytes, `page_id` then `file_id`;
`file_id == 0` denotes the null pointer. -/
def PagePointer.parse (data : List Nat) : PResult (Option PagePointer) :=
  if data.length < 6 then .panic else
  if leAt data 4 2 = 0 then .ok none
  else .ok (some ⟨leAt data 0 4, leAt data 4 2⟩)

/-- `RecordPointer` from `raw_page.rs`. -/
structure RecordPointer where
  page_ptr : PagePointer
  slot_id : Nat
deriving DecidableEq

/-- `RecordPointer::parse`: eight bytes, the page pointer then a `u16`
`slot_id`; `file_id == 0` denotes the null pointer. -/
def RecordPointer.parse (data : List Nat) : PResult (Option RecordPointer) :=
  if data.length < 6 then .panic else
  if leAt data 4 2 = 0 then .ok none else
  if data.length < 8 then .panic else
  .ok (some ⟨⟨leAt data 0 4, leAt data 4 2⟩, leAt data 6 2⟩)

/-! ## `lob.rs` -/

/-- `LobPointer`: 16 bytes, `timestamp: u32` at offset 0 and a record pointer
at offset 8. -/
structure LobPointer where
  timestamp : Nat
  ptr : RecordPointer
deriving DecidableEq

/-- `LobPointer::parse`: reads the timestamp from bytes 0..4 and unwraps
`RecordPointer::parse(&data[8..16])` (panicking on a null record pointer). -/
def LobPointer.parse (data : List Nat) : PResult LobPointer :=
  if data.length < 4 then .panic else
  if data.length < 16 then .panic else
  match RecordPointer.parse ((data.drop 8).take 8) with
  | .panic => .panic
  | .errNone => .panic
  | .ok none => .panic
  | .ok (some p) => .ok ⟨leAt data 0 4, p⟩

/-- `LobType` from `lob.rs`. -/
inductive LobType where
  | SmallRoot
  | LargeRootYukon
  | Data
  | Internal
  | Null
deriving DecidableEq

/-- `LobType::parse`: the `u16` at fixed-data offset 8..10; codes
0/2/3/5/8 are known, anything else is logged and rejected (`None`). -/
def LobType.parse (record : Record) : PResult LobType :=
  if record.fixed_data.length < 10 then .panic else
  match leAt record.fixed_data 8 2 with
  | 0 => .ok .SmallRoot
  | 2 => .ok .Internal
  | 3 => .ok .Data
  | 5 => .ok .LargeRootYukon
  | 8 => .ok .Null
  | _ => .errNone

/-- `SizedRecordPointer`: `(size: u32, RecordPointer)`, 12 bytes. -/
structure SizedRecordPointer where
  size : Nat
  ptr : RecordPointer
deriving DecidableEq

/-- `SizedRecordPointer::parse`; the `unwrap` of `RecordPointer::parse`
panics on a null (file_id 0) pointer. -/
def SizedRecordPointer.parse (data : List Nat) : PResult SizedRecordPointer :=
  if data.length < 4 then .panic else
  match RecordPointer.parse (data.drop 4) with
  | .panic => .panic
  | .errNone => .panic
  | .ok none => .panic
  | .ok (some p) => .ok ⟨leAt data 0 4, p⟩

/-- `RecordPointerWithOffset`: `(offset: u64, RecordPointer)`, 16 bytes. -/
structure RecordPointerWithOffset where
  offset : Nat
  ptr : RecordPointer
deriving DecidableEq

/-- `RecordPointerWithOffset::parse`; the `unwrap` panics on a null pointer. -/
def RecordPointerWithOffset.parse (data : List Nat) :
    PResult RecordPointerWithOffset :=
  if data.length < 8 then .panic else
  match RecordPointer.parse (data.drop 8) with
  | .panic => .panic
  | .errNone => .panic
  | .ok none => .panic
  | .ok (some p) => .ok ⟨leAt data 0 8, p⟩

/-- `LobSmallRoot`: inline data of `length` bytes starting at fixed offset 16. -/
structure LobSmallRoot where
  blob_id : Nat
  ty : LobType
  length : Nat
  data : List Nat
deriving DecidableEq

/-- `LobSmallRoot::parse` from `lob.rs`. -/
def LobSmallRoot.parse (record : Record) : PResult LobSmallRoot :=
  if record.fixed_data.length < 8 then .panic else
  match LobType.parse record with
  | .panic => .panic
  | .errNone => .errNone
  | .ok ty =>
    if ty ≠ LobType.SmallRoot then .panic else
    if record.fixed_data.length < 12 then .panic else
    match sliceOk record.fixed_data 16 (16 + leAt record.fixed_data 10 2) with
    | none => .panic
    | some d =>
      .ok ⟨leAt record.fixed_data 0 8, ty, leAt record.fixed_data 10 2, d⟩

/-- `LobData`: payload is the fixed data from offset 10 to the end. -/
structure LobData where
  blob_id : Nat
  ty : LobType
  data : List Nat
deriving DecidableEq

/-- `LobData::parse` from `lob.rs`. -/
def LobData.parse (record : Record) : PResult LobData :=
  if record.fixed_data.length < 8 then .panic else
  match LobType.parse record with
  | .panic => .panic
  | .errNone => .errNone
  | .ok ty =>
    if ty ≠ LobType.Data then .panic else
    .ok ⟨leAt record.fixed_data 0 8, ty, record.fixed_data.drop 10⟩

/-- `LobLargeRootYukon`: `cur_links` entries of 12 bytes each starting at
fixed offset 20. -/
structure LobLargeRootYukon where
  blob_id : Nat
  ty : LobType
  max_links : Nat
  cur_links : Nat
  level : Nat
  record : Record
deriving DecidableEq

/-- `LobLargeRootYukon::parse` from `lob.rs`. -/
def LobLargeRootYukon.parse (record : Record) : PResult LobLargeRootYukon :=
  if record.fixed_data.length < 8 then .panic else
  match LobType.parse record with
  | .panic => .panic
  | .errNone => .errNone
  | .ok ty =>
    if ty ≠ LobType.LargeRootYukon then .panic else
    if record.fixed_data.length < 16 then .panic else
    .ok ⟨leAt record.fixed_data 0 8, ty, leAt record.fixed_data 10 2,
         leAt record.fixed_data 12 2, leAt record.fixed_data 14 2, record⟩

/-- `LobInternal`: `cur_links` entries of 16 bytes each, entry `i` at
`16*(i+1) .. 16*(i+2)`. -/
structure LobInternal where
  blob_id : Nat
  ty : LobType
  max_links : Nat
  cur_links : Nat
  level : Nat
  record : Record
deriving DecidableEq

/-- `LobInternal::parse` from `lob.rs`. -/
def LobInternal.parse (record : Record) : PResult LobInternal :=
  if record.fixed_data.length < 8 then .panic else
  match LobType.parse record with
  | .panic => .panic
  | .errNone => .errNone
  | .ok ty =>
    if ty ≠ LobType.Internal then .panic else
    if record.fixed_data.length < 16 then .panic else
    .ok ⟨leAt record.fixed_data 0 8, ty, leAt record.fixed_data 10 2,
         leAt record.fixed_data 12 2, leAt record.fixed_data 14 2, record⟩

/-- `LobEntry` from `lob.rs`. -/
inductive LobEntry where
  | SmallRoot (r : LobSmallRoot)
  | LargeRootYukon (r : LobLargeRootYukon)
  | Data (r : LobData)
  | Internal (r : LobInternal)
deriving DecidableEq

/-- `LobEntry::parse`: dispatch on the parsed LOB type; a `Null` node and an
unknown type code both yield `None`. -/
def LobEntry.parse (record : Record) : PResult LobEntry :=
  match LobType.parse record with
  | .panic => .panic
  | .errNone => .errNone
  | .ok ty =>
    match ty with
    | .SmallRoot => (LobSmallRoot.parse record).map .SmallRoot
    | .LargeRootYukon => (LobLargeRootYukon.parse record).map .LargeRootYukon
    | .Data => (LobData.parse record).map .Data
    | .Internal => (LobInternal.parse record).map .Internal
    | .Null => .errNone

/-- `LobLargeRootYukon::read_idx`: `None` for `idx ≥ cur_links`, otherwise
parse the 12-byte entry at fixed offset `20 + 12*idx` (the slice panics when
the fixed data is too short, and the record-pointer `unwrap` panics on a
file_id of 0). -/
def LobLargeRootYukon.read_idx (n : LobLargeRootYukon) (idx : Nat) :
    PResult (Option RecordPointer) :=
  if n.cur_links ≤ idx then .ok none
  else
    match sliceOk n.record.fixed_data (20 + 12 * idx) (20 + 12 * (idx + 1)) with
    | none => .panic
    | some e =>
      match SizedRecordPointer.parse e with
      | .panic => .panic
      | .errNone => .panic
      | .ok srp => .ok (some srp.ptr)

/-- `LobInternal::read_idx`: `None` for `idx ≥ cur_links`, otherwise parse
the 16-byte entry at `16*(idx+1) .. 16*(idx+2)`. -/
def LobInternal.read_idx (n : LobInternal) (idx : Nat) :
    PResult (Option RecordPointer) :=
  if n.cur_links ≤ idx then .ok none
  else
    match sliceOk n.record.fixed_data (16 * (idx + 1)) (16 * (idx + 2)) with
    | none => .panic
    | some e =>
      match RecordPointerWithOffset.parse e with
      | .panic => .panic
      | .errNone => .panic
      | .ok rpo => .ok (some rpo.ptr)

/-- The page-provider interface as consumed by the LOB walker:
`get_record` resolves a record pointer or reports the record as missing. -/
abbrev GetRecord : Type := RecordPointer → Option Record

/-- `LobLargeRootYukon::read`: resolve child `idx`.  `errNone` is the Rust
`None` — returned both when `idx ≥ cur_links` and when the child pointer
cannot be resolved or parsed (the `?` operators); either way the sub-entry
iterator ends. -/
def LobLargeRootYukon.read (n : LobLargeRootYukon) (gp : GetRecord)
    (idx : Nat) : PResult (Nat × LobEntry) :=
  if n.cur_links ≤ idx then .errNone
  else
    match sliceOk n.record.fixed_data (20 + 12 * idx) (20 + 12 * (idx + 1)) with
    | none => .panic
    | some e =>
      match SizedRecordPointer.parse e with
      | .panic => .panic
      | .errNone => .panic
      | .ok srp =>
        match gp srp.ptr with
        | none => .errNone
        | some rec =>
          match LobEntry.parse rec with
          | .panic => .panic
          | .errNone => .errNone
          | .ok child => .ok (srp.size, child)

/-- `LobInternal::read`: resolve child `idx` (entry carries a `u64` offset). -/
def LobInternal.read (n : LobInternal) (gp : GetRecord) (idx : Nat) :
    PResult (Nat × LobEntry) :=
  if n.cur_links ≤ idx then .errNone
  else
    match sliceOk n.record.fixed_data (16 * (idx + 1)) (16 * (idx + 2)) with
    | none => .panic
    | some e =>
      match RecordPointerWithOffset.parse e with
      | .panic => .panic
      | .errNone => .panic
      | .ok rpo =>
        match gp rpo.ptr with
        | none => .errNone
        | some rec =>
          match LobEntry.parse rec with
          | .panic => .panic
          | .errNone => .errNone
          | .ok child => .ok (rpo.offset, child)

/-- Drain `LobEntrySubEntryIterator`: call `step` at `idx`, `idx+1`, … until
it yields `None`.  Since `step i` is `None` for every `i ≥ cur_links`, a fuel
of `cur_links - idx` makes the recursion total without changing the result. -/
def collectSub (step : Nat → PResult (Nat × LobEntry)) :
    Nat → Nat → PResult (List (Nat × LobEntry))
  | _, 0 => .ok []
  | idx, fuel + 1 =>
    match step idx with
    | .errNone => .ok []
    | .panic => .panic
    | .ok x => (collectSub step (idx + 1) fuel).map (x :: ·)

/-- `LobEntry::sub_entries` collected into a list; calling it on a leaf hits
the Rust `panic!` arm of the iterator. -/
def LobEntry.sub_entries (gp : GetRecord) : LobEntry →
    PResult (List (Nat × LobEntry))
  | .LargeRootYukon root => collectSub (root.read gp) 0 root.cur_links
  | .Internal internal => collectSub (internal.read gp) 0 internal.cur_links
  | _ => .panic

/-- Split the sub-entries of one node the way the walk loop in
`LobPointer::read` does: leaves become `(offset, bytes)` extents, inner
nodes are queued for the next round, each in iteration order. -/
def classifySubs : List (Nat × LobEntry) →
    (List (Nat × List Nat) × List LobEntry)
  | [] => ([], [])
  | (offs, e) :: rest =>
    let (bs, ns) := classifySubs rest
    match e with
    | .SmallRoot sr => ((offs, sr.data) :: bs, ns)
    | .Data d => ((offs, d.data) :: bs, ns)
    | e => (bs, e :: ns)

/-- One pass of the `while !entries.is_empty()` loop body of
`LobPointer::read` over the current entry list, producing the extents
emitted during the pass and the `new_entries` for the next pass. -/
def lobRound (gp : GetRecord) : List LobEntry →
    PResult (List (Nat × List Nat) × List LobEntry)
  | [] => .ok ([], [])
  | e :: rest =>
    let this : PResult (List (Nat × List Nat) × List LobEntry) :=
      match e with
      | .SmallRoot sr => .ok ([(sr.data.length, sr.data)], [])
      | .Data d => .ok ([(d.data.length, d.data)], [])
      | e =>
        match LobEntry.sub_entries gp e with
        | .panic => .panic
        | .errNone => .panic
        | .ok subs => .ok (classifySubs subs)
    match this with
    | .panic => .panic
    | .errNone => .panic
    | .ok (bs, ns) =>
      match lobRound gp rest with
      | .panic => .panic
      | .errNone => .panic
      | .ok (bs2, ns2) => .ok (bs ++ bs2, ns ++ ns2)

/-- Outcome of `LobPointer::read`: `blocks` is `Some(LobDataBlocks)`,
`nothing` is `None`, and `fuelOut` marks an unfinished walk (the Rust loop
does not terminate on cyclic pointer graphs; a large enough fuel reproduces
every terminating run). -/
inductive LobResult where
  | blocks (bs : List (Nat × List Nat))
  | nothing
  | panic
  | fuelOut
deriving DecidableEq

/-- The `while !entries.is_empty()` loop of `LobPointer::read`. -/
def lobLoop (gp : GetRecord) : Nat → List LobEntry → List (Nat × List Nat) →
    LobResult
  | _, [], acc => .blocks acc
  | 0, _ :: _, _ => .fuelOut
  | fuel + 1, entries, acc =>
    match lobRound gp entries with
    | .panic => .panic
    | .errNone => .panic
    | .ok (bs, ns) => lobLoop gp fuel ns (acc ++ bs)

/-- `LobPointer::read`: resolve the root record, parse it, then walk the
tree breadth-first.  Only a missing or unparseable root produces `nothing`. -/
def LobPointer.read (gp : GetRecord) (fuel : Nat) (p : LobPointer) :
    LobResult :=
  match gp p.ptr with
  | none => .nothing
  | some record =>
    match LobEntry.parse record with
    | .panic => .panic
    | .errNone => .nothing
    | .ok e => lobLoop gp fuel [e] []

/-! ### Concrete LOB fixtures -/

/-- A concrete `LargeRootYukon` record: `blob_id = 0`, type code 5,
`max_links = cur_links = 2`, two child entries of 12 bytes at fixed offset
20 — `(size 3, page 1 file 1 slot 0)` and `(size 5, page 2 file 1 slot 0)`. -/
def rootRecC1 : Record :=
  { ty := .Blob, tag_a := 0, tag_b := 0, column_count := 0,
    fixed_data := [0,0,0,0,0,0,0,0, 5,0, 2,0, 2,0, 0,0, 0,0,0,0,
                   3,0,0,0, 1,0,0,0, 1,0, 0,0,
                   5,0,0,0, 2,0,0,0, 1,0, 0,0],
    null_bitmap := none, var_length_columns := none }

/-- A concrete `Data` leaf record with payload `[9, 9, 9]`. -/
def dataRecC1 : Record :=
  { ty := .Blob, tag_a := 0, tag_b := 0, column_count := 0,
    fixed_data := [0,0,0,0,0,0,0,0, 3,0, 9,9,9],
    null_bitmap := none, var_length_columns := none }

/-- A page provider that resolves the root at `(9,1,0)` and the first child
at `(1,1,0)` but not the second child at `(2,1,0)`. -/
def gpC1 : GetRecord := fun rp =>
  if rp = ⟨⟨9, 1⟩, 0⟩ then some rootRecC1
  else if rp = ⟨⟨1, 1⟩, 0⟩ then some dataRecC1
  else none

/-- A `LargeRootYukon` record whose header claims `cur_links = 1` but whose
fixed data (16 bytes) is too short to hold any 12-byte entry at offset 20. -/
def recC4 : Record :=
  { ty := .Blob, tag_a := 0, tag_b := 0, column_count := 0,
    fixed_data := [0,0,0,0,0,0,0,0, 5,0, 2,0, 1,0, 0,0],
    null_bitmap := none, var_length_columns := none }

/-- A well-formed `LargeRootYukon` node with one entry
`(size 7, page 1 file 1 slot 0)`. -/
def lobYukonW : LobLargeRootYukon :=
  ⟨0, .LargeRootYukon, 1, 1, 0,
   { ty := .Blob, tag_a := 0, tag_b := 0, column_count := 0,
     fixed_data := [0,0,0,0,0,0,0,0, 5,0, 1,0, 1,0, 0,0, 0,0,0,0,
                    7,0,0,0, 1,0,0,0, 1,0, 0,0],
     null_bitmap := none, var_length_columns := none }⟩

/-- A well-formed `Internal` node with one entry
`(offset 0, page 5 file 1 slot 0)`. -/
def lobInternalW : LobInternal :=
  ⟨0, .Internal, 1, 1, 0,
   { ty := .Blob, tag_a := 0, tag_b := 0, column_count := 0,
     fixed_data := [0,0,0,0,0,0,0,0, 2,0, 1,0, 1,0, 0,0,
                    0,0,0,0,0,0,0,0, 5,0,0,0, 1,0, 0,0],
     null_bitmap := none, var_length_columns := none }⟩


/-! ## `types.rs`: cursor, bit cursor, SQL types and values -/

/-- `std::io::Cursor<&[u8]>`: the underlying bytes and the read position. -/
structure Cursor where
  data : List Nat
  pos : Nat
deriving DecidableEq

/-- Read `n` bytes little-endian from the cursor and advance; `read_uNN`
through `byteorder` errors — and the caller's `unwrap` panics — when fewer
than `n` bytes remain. -/
def Cursor.readLE (c : Cursor) (n : Nat) : PResult (Nat × Cursor) :=
  if c.pos + n ≤ c.data.length then
    .ok (leAt c.data c.pos n, ⟨c.data, c.pos + n⟩)
  else .panic

/-- Take `n` raw bytes (`&cursor.get_ref()[pos..pos+size]`, panicking when
out of bounds) and advance the position as `set_position` does. -/
def Cursor.readBytes (c : Cursor) (n : Nat) : PResult (List Nat × Cursor) :=
  if c.pos + n ≤ c.data.length then
    .ok ((c.data.drop c.pos).take n, ⟨c.data, c.pos + n⟩)
  else .panic

/-- Two's-complement reading of a `w`-bit unsigned value as a signed one. -/
def toSigned (w n : Nat) : ℤ :=
  if n < 2 ^ (w - 1) then (n : ℤ) else (n : ℤ) - 2 ^ w

/-- The `i16 as usize` cast used for column lengths: sign-extension
reinterpreted as a 64-bit unsigned value. -/
def asUsize (i : ℤ) : Nat := (i.emod (2 ^ 64)).toNat

/-- UTF-16LE decoding as `parse_utf16_string` (through `encoding_rs`) sees
it, abstracted to the list of 16-bit code units; a trailing odd byte decodes
to the replacement character. -/
def utf16Units : List Nat → List Nat
  | b0 :: b1 :: rest => (b0 % 256 + 256 * (b1 % 256)) :: utf16Units rest
  | [_] => [0xFFFD]
  | [] => []

/-- A UTF-8 continuation byte (`0x80..0xBF`). -/
def utf8Cont (b : Nat) : Bool := 0x80 ≤ b % 256 ∧ b % 256 < 0xC0

/-- Exact UTF-8 validity (what `std::str::from_utf8` checks: no overlong
forms, no surrogates, no code points beyond U+10FFFF). -/
def utf8Valid : List Nat → Bool
  | [] => true
  | b0 :: rest =>
    if b0 % 256 < 0x80 then utf8Valid rest
    else if 0xC2 ≤ b0 % 256 ∧ b0 % 256 ≤ 0xDF then
      match rest with
      | b1 :: rest2 => utf8Cont b1 && utf8Valid rest2
      | [] => false
    else if b0 % 256 = 0xE0 then
      match rest with
      | b1 :: b2 :: rest2 =>
        decide (0xA0 ≤ b1 % 256 ∧ b1 % 256 ≤ 0xBF) && utf8Cont b2 &&
          utf8Valid rest2
      | _ => false
    else if (0xE1 ≤ b0 % 256 ∧ b0 % 256 ≤ 0xEC) ∨ b0 % 256 = 0xEE ∨
        b0 % 256 = 0xEF then
      match rest with
      | b1 :: b2 :: rest2 => utf8Cont b1 && utf8Cont b2 && utf8Valid rest2
      | _ => false
    else if b0 % 256 = 0xED then
      match rest with
      | b1 :: b2 :: rest2 =>
        decide (0x80 ≤ b1 % 256 ∧ b1 % 256 ≤ 0x9F) && utf8Cont b2 &&
          utf8Valid rest2
      | _ => false
    else if b0 % 256 = 0xF0 then
      match rest with
      | b1 :: b2 :: b3 :: rest2 =>
        decide (0x90 ≤ b1 % 256 ∧ b1 % 256 ≤ 0xBF) && utf8Cont b2 &&
          utf8Cont b3 && utf8Valid rest2
      | _ => false
    else if 0xF1 ≤ b0 % 256 ∧ b0 % 256 ≤ 0xF3 then
      match rest with
      | b1 :: b2 :: b3 :: rest2 =>
        utf8Cont b1 && utf8Cont b2 && utf8Cont b3 && utf8Valid rest2
      | _ => false
    else if b0 % 256 = 0xF4 then
      match rest with
      | b1 :: b2 :: b3 :: rest2 =>
        decide (0x80 ≤ b1 % 256 ∧ b1 % 256 ≤ 0x8F) && utf8Cont b2 &&
          utf8Cont b3 && utf8Valid rest2
      | _ => false
    else false
termination_by l => l.length
decreasing_by all_goals (simp only [List.length_cons]; omega)

/-- `SqlType` from `types.rs`. -/
inductive SqlType where
  | TinyInt
  | SmallInt
  | Int
  | BigInt
  | Binary (size : Nat)
  | Char (size : Nat)
  | NChar (size : Nat)
  | VarBinary (max_size : Option Nat)
  | VarChar (max_size : Option Nat)
  | Bit
  | SqlVariant
  | NVarChar
  | SysName
  | DateTime
  | SmallDateTime
  | UniqueIdentifier
  | Image
  | NText
  | Float
deriving DecidableEq

/-- `ValueOrLob` from `types.rs`. -/
inductive ValueOrLob (α : Type) where
  | Value (v : α)
  | Lob (p : LobPointer)
deriving DecidableEq

/-- `SqlValue` from `types.rs`.  Strings are kept as the byte/code-unit
lists the decoder produced them from (`Char` keeps its UTF-8-checked bytes,
`NChar`/`SysName`/`NVarChar` the UTF-16 code units); `DateTime` is
milliseconds since 1900-01-01 00:00:00 (`chrono::NaiveDateTime` relative to
the decoder's fixed base); `Float` keeps the raw IEEE-754 bit pattern. -/
inductive SqlValue where
  | TinyInt (v : ℤ)
  | SmallInt (v : ℤ)
  | Int (v : ℤ)
  | BigInt (v : ℤ)
  | Bit (b : Bool)
  | Binary (bytes : List Nat)
  | Char (bytes : List Nat)
  | NChar (units : List Nat)
  | NText (bytes : List Nat)
  | VarBinary (v : ValueOrLob (List Nat))
  | VarChar (bytes : List Nat)
  | SysName (units : List Nat)
  | NVarChar (v : ValueOrLob (List Nat))
  | SqlVariant (bytes : List Nat)
  | UniqueIdentifier (v : Nat)
  | DateTime (ms1900 : ℤ)
  | SmallDateTime (ms1900 : ℤ)
  | Image (p : Option LobPointer)
  | Float (bits : Nat)
deriving DecidableEq

/-- `SqlType::is_var_length`. -/
def SqlType.is_var_length : SqlType → Bool
  | .TinyInt | .SmallInt | .Int | .BigInt | .Binary _ | .Char _ | .NChar _
  | .DateTime | .UniqueIdentifier | .Bit | .Float | .SmallDateTime => false
  | .VarBinary _ | .VarChar _ | .SysName | .NVarChar | .SqlVariant
  | .Image | .NText => true

/-- `BitParser` from `types.rs`: the current byte and how many of its bits
have been consumed. -/
structure BitParser where
  current_byte : Nat
  read_bits : Nat
deriving DecidableEq

/-- `BitParser::new()`: starts exhausted so the first bit fetches a byte. -/
def BitParser.new : BitParser := ⟨0, 8⟩

/-- `BitParser::read_bit`: when all 8 bits are spent, fetch one byte from
the cursor; then emit the least significant remaining bit and shift. -/
def BitParser.read_bit (bp : BitParser) (cursor : Cursor) :
    PResult (Bool × BitParser × Cursor) :=
  if bp.read_bits = 8 then
    match cursor.readLE 1 with
    | .panic => .panic
    | .errNone => .panic
    | .ok (b, c2) => .ok (decide (b % 2 = 1), ⟨b / 2, 1⟩, c2)
  else
    .ok (decide (bp.current_byte % 2 = 1),
         ⟨bp.current_byte / 2, bp.read_bits + 1⟩, cursor)

/-- Fixed-length `SqlType::parse`: reads from the shared fixed-data cursor
(and the bit cursor for `Bit`); calling it on a variable-length type is the
Rust `panic!` arm. -/
def SqlType.parse (ty : SqlType) (bp : BitParser) (cursor : Cursor) :
    PResult (SqlValue × BitParser × Cursor) :=
  match ty with
  | .TinyInt =>
    match cursor.readLE 1 with
    | .panic => .panic
    | .errNone => .panic
    | .ok (v, c2) => .ok (.TinyInt (toSigned 8 v), bp, c2)
  | .SmallInt =>
    match cursor.readLE 2 with
    | .panic => .panic
    | .errNone => .panic
    | .ok (v, c2) => .ok (.SmallInt (toSigned 16 v), bp, c2)
  | .Int =>
    match cursor.readLE 4 with
    | .panic => .panic
    | .errNone => .panic
    | .ok (v, c2) => .ok (.Int (toSigned 32 v), bp, c2)
  | .BigInt =>
    match cursor.readLE 8 with
    | .panic => .panic
    | .errNone => .panic
    | .ok (v, c2) => .ok (.BigInt (toSigned 64 v), bp, c2)
  | .Bit =>
    match bp.read_bit cursor with
    | .panic => .panic
    | .errNone => .panic
    | .ok (b, bp2, c2) => .ok (.Bit b, bp2, c2)
  | .Float =>
    match cursor.readLE 8 with
    | .panic => .panic
    | .errNone => .panic
    | .ok (v, c2) => .ok (.Float v, bp, c2)
  | .UniqueIdentifier =>
    match cursor.readLE 16 with
    | .panic => .panic
    | .errNone => .panic
    | .ok (v, c2) => .ok (.UniqueIdentifier v, bp, c2)
  | .DateTime =>
    match cursor.readLE 4 with
    | .panic => .panic
    | .errNone => .panic
    | .ok (time_raw, c2) =>
      match c2.readLE 4 with
      | .panic => .panic
      | .errNone => .panic
      | .ok (date_raw, c3) =>
        let time := toSigned 32 time_raw
        let date := toSigned 32 date_raw
        let ms : ℤ :=
          (if date < 1000000 ∧ 0 < date then date * 86400000 else 0) +
            Int.tdiv (time * 1000) 300
        .ok (.DateTime ms, bp, c3)
  | .SmallDateTime =>
    match cursor.readLE 2 with
    | .panic => .panic
    | .errNone => .panic
    | .ok (time, c2) =>
      match c2.readLE 2 with
      | .panic => .panic
      | .errNone => .panic
      | .ok (date, c3) =>
        .ok (.DateTime ((date : ℤ) * 86400000 + (time : ℤ) * 60000), bp, c3)
  | .Binary size =>
    match cursor.readBytes size with
    | .panic => .panic
    | .errNone => .panic
    | .ok (bytes, c2) => .ok (.Binary bytes, bp, c2)
  | .Char size =>
    match cursor.readBytes size with
    | .panic => .panic
    | .errNone => .panic
    | .ok (bytes, c2) =>
      if utf8Valid bytes then .ok (.Char bytes, bp, c2) else .panic
  | .NChar size =>
    match cursor.readBytes size with
    | .panic => .panic
    | .errNone => .panic
    | .ok (bytes, c2) => .ok (.NChar (utf16Units bytes), bp, c2)
  | _ => .panic

/-- Variable-length `SqlType::parse_var_length` from `types.rs`.  The
`NText` arm mirrors the source: it builds `SqlValue::Image`, not
`SqlValue::NText`. -/
def SqlType.parse_var_length (ty : SqlType) (complex : Bool)
    (data : List Nat) : PResult SqlValue :=
  match ty with
  | .VarBinary _ =>
    if complex then (LobPointer.parse data).map (fun p => .VarBinary (.Lob p))
    else .ok (.VarBinary (.Value data))
  | .VarChar max_size =>
    if complex then .panic else
    match max_size with
    | some m => if m < data.length then .panic else .ok (.VarChar data)
    | none => .ok (.VarChar data)
  | .Image =>
    if data ≠ [] then
      if complex = false then .panic else
      if data.length ≠ 16 then .panic else
      (LobPointer.parse data).map (fun p => .Image (some p))
    else .ok (.Image none)
  | .NText =>
    if data ≠ [] then
      if complex = false then .panic else
      if data.length ≠ 16 then .panic else
      (LobPointer.parse data).map (fun p => .Image (some p))
    else .ok (.Image none)
  | .SysName =>
    if complex then .panic else .ok (.SysName (utf16Units data))
  | .NVarChar =>
    if complex then (LobPointer.parse data).map (fun p => .NVarChar (.Lob p))
    else .ok (.NVarChar (.Value (utf16Units data)))
  | .SqlVariant =>
    if complex then .panic else .ok (.SqlVariant data)
  | _ => .panic


/-- `VarLengthColumnOffset::parse`: low 15 bits are the ending byte offset
(from record start), the high bit is the "complex" marker.  (`endPos` is the
Rust field `end`, renamed because `end` is a Lean keyword.) -/
structure VarLengthColumnOffset where
  endPos : Nat
  complex : Bool
deriving DecidableEq

def VarLengthColumnOffset.parse (bytes : List Nat) :
    PResult VarLengthColumnOffset :=
  if bytes.length < 2 then .panic else
  .ok ⟨leAt bytes 0 2 % 32768, decide (32768 ≤ leAt bytes 0 2)⟩

/-- `VarLengthColumns::get` from `record.rs`: an index at or past `count`
yields an empty non-complex slice; otherwise the payload lies between the
previous column's end offset (or the end of the offset array for index 0)
and this column's end offset, both rebased by `base_offset` (the `usize`
subtractions and the slice panics are explicit). -/
def VarLengthColumns.get (v : VarLengthColumns) (idx : Nat) :
    PResult (Bool × List Nat) :=
  if v.count ≤ idx then .ok (false, [])
  else
    match
      (if idx = 0 then PResult.ok (2 * v.count)
       else
         match sliceOk v.data (2 * (idx - 1)) (2 * idx) with
         | none => .panic
         | some prev_bytes =>
           match VarLengthColumnOffset.parse prev_bytes with
           | .panic => .panic
           | .errNone => .panic
           | .ok off =>
             if off.endPos < v.base_offset then .panic
             else .ok (off.endPos - v.base_offset)) with
    | .panic => .panic
    | .errNone => .errNone
    | .ok start =>
      match sliceOk v.data (2 * idx) (2 * (idx + 1)) with
      | none => .panic
      | some end_bytes =>
        match VarLengthColumnOffset.parse end_bytes with
        | .panic => .panic
        | .errNone => .panic
        | .ok endo =>
          if endo.endPos < v.base_offset then .panic else
          match sliceOk v.data start (endo.endPos - v.base_offset) with
          | none => .panic
          | some payload => .ok (endo.complex, payload)

/-- `ColumnType` from `types.rs`. -/
structure ColumnType where
  idx : ℤ
  data_type : SqlType
  name : String
  nullable : Bool
  computed : Bool
deriving DecidableEq

/-- `Schema` from `types.rs`: an ordered column list. -/
structure Schema where
  columns : List ColumnType
deriving DecidableEq

/-- `Row` from `types.rs`. -/
structure Row where
  values : List (Option SqlValue)
deriving DecidableEq

/-- The column loop of `Schema::parse`: `i` is the position in the schema,
then the preallocated value slots, the fixed-data cursor, the bit cursor,
`var_column_idx` and `null_bit_idx`.  A `computed` column advances nothing;
a column at or past `record.column_count` stays null; a null-bitmap hit
stays null; otherwise the value is decoded from the variable block (or an
empty synthetic slice) or from the fixed-data cursor. -/
def schemaParseGo (r : Record) :
    List ColumnType → Nat → List (Option SqlValue) → Cursor → BitParser →
    Nat → Nat → PResult (List (Option SqlValue))
  | [], _, values, _, _, _, _ => .ok values
  | col :: rest, i, values, cursor, bp, var_column_idx, null_bit_idx =>
    if col.computed then
      schemaParseGo r rest (i + 1) values cursor bp var_column_idx
        null_bit_idx
    else if r.column_count ≤ null_bit_idx then
      schemaParseGo r rest (i + 1) values cursor bp var_column_idx
        (null_bit_idx + 1)
    else
      match r.is_column_null null_bit_idx with
      | .panic => .panic
      | .errNone => .panic
      | .ok true =>
        schemaParseGo r rest (i + 1) values cursor bp var_column_idx
          (null_bit_idx + 1)
      | .ok false =>
        if col.data_type.is_var_length then
          match r.var_length_columns with
          | some columns =>
            match columns.get var_column_idx with
            | .panic => .panic
            | .errNone => .errNone
            | .ok (complex, data) =>
              match col.data_type.parse_var_length complex data with
              | .panic => .panic
              | .errNone => .errNone
              | .ok v =>
                schemaParseGo r rest (i + 1) (values.set i (some v)) cursor
                  bp (var_column_idx + 1) (null_bit_idx + 1)
          | none =>
            match col.data_type.parse_var_length false [] with
            | .panic => .panic
            | .errNone => .errNone
            | .ok v =>
              schemaParseGo r rest (i + 1) (values.set i (some v)) cursor bp
                var_column_idx (null_bit_idx + 1)
        else
          match col.data_type.parse bp cursor with
          | .panic => .panic
          | .errNone => .errNone
          | .ok (v, bp2, cursor2) =>
            schemaParseGo r rest (i + 1) (values.set i (some v)) cursor2 bp2
              var_column_idx (null_bit_idx + 1)

/-- `Schema::parse` from `types.rs`: preallocate one null slot per column,
then run the column loop over the record with a fresh cursor and bit
cursor. -/
def Schema.parse (s : Schema) (r : Record) : PResult Row :=
  (schemaParseGo r s.columns 0 (List.replicate s.columns.length none)
    ⟨r.fixed_data, 0⟩ BitParser.new 0 0).map Row.mk

/-! ## `system_tables.rs`: column catalog rows and `Schema::from_col_par` -/

/-- `ColParStatus` bit constants from `system_tables.rs`. -/
def ColParStatus.NULLABLE : Nat := 1
def ColParStatus.ANSI_PADDED : Nat := 2
def ColParStatus.IDENTIYT : Nat := 4
def ColParStatus.ROW_GUID_COL : Nat := 8
def ColParStatus.COMPUTED : Nat := 16
def ColParStatus.FILESTREAM : Nat := 32
def ColParStatus.XML_DOCUMENT : Nat := 2048
def ColParStatus.REPLICATED : Nat := 131072
def ColParStatus.NON_SQL_SUBSCRIBED : Nat := 262144
def ColParStatus.MERGE_PUBLISHED : Nat := 524288
def ColParStatus.DTS_REPLICATED : Nat := 2097152
def ColParStatus.SPARSE : Nat := 16777216
def ColParStatus.COLUMN_SET : Nat := 33554432

/-- `bitflags` `contains`: all bits of `flag` are set in `status`. -/
def statusContains (status flag : Nat) : Bool := status &&& flag = flag

/-- `SysColPar` (one `sys.colpars` row), as produced by its row parser;
`status` holds the `ColParStatus` bits. -/
structure SysColPar where
  id : ℤ
  number : ℤ
  col_id : ℤ
  name : Option String
  xtype : ℤ
  utype : ℤ
  length : ℤ
  prec : ℤ
  scale : ℤ
  collation_id : ℤ
  status : Nat
  max_in_row : ℤ
  xml_ns : ℤ
  dflt : ℤ
  chk : ℤ
  idt_val : Option (ValueOrLob (List Nat))
deriving DecidableEq

/-- `SysScalarType` (one `sys.scalartypes` row). -/
structure SysScalarType where
  id : ℤ
  sch_id : ℤ
  name : String
  xtype : ℤ
  length : ℤ
  prec : ℤ
  scale : ℤ
  collation_id : ℤ
  status : ℤ
  created : ℤ
  modified : ℤ
  dflt : ℤ
  chk : ℤ
deriving DecidableEq

/-- `SqlType::from_col`: the scalar type's name picks the `SqlType`, with
the column's declared length for sized types; an unknown name panics. -/
def SqlType.from_col (col : SysColPar) (ty : SysScalarType) :
    PResult SqlType :=
  match ty.name with
  | "tinyint" => .ok .TinyInt
  | "smallint" => .ok .SmallInt
  | "int" => .ok .Int
  | "bigint" => .ok .BigInt
  | "binary" => .ok (.Binary (asUsize col.length))
  | "char" => .ok (.Char (asUsize col.length))
  | "nchar" => .ok (.NChar (asUsize col.length))
  | "varbinary" => .ok (.VarBinary (some (asUsize col.length)))
  | "varchar" => .ok (.VarChar (some (asUsize col.length)))
  | "bit" => .ok .Bit
  | "nvarchar" => .ok .NVarChar
  | "sysname" => .ok .SysName
  | "uniqueidentifier" => .ok .UniqueIdentifier
  | "datetime" => .ok .DateTime
  | "sql_variant" => .ok .SqlVariant
  | "image" => .ok .Image
  | "ntext" => .ok .NText
  | "float" => .ok .Float
  | "smalldatetime" => .ok .SmallDateTime
  | _ => .panic

/-- The closure body of `Schema::from_col_par`: reject sparse, filestream
and XML-document columns, panic on a missing name, and build the column
with `nullable` the negation of the catalog `NULLABLE` bit. -/
def colParColumn (col : SysColPar) (ty : SysScalarType) :
    PResult ColumnType :=
  if statusContains col.status ColParStatus.SPARSE then .panic else
  if statusContains col.status ColParStatus.FILESTREAM then .panic else
  if statusContains col.status ColParStatus.XML_DOCUMENT then .panic else
  match SqlType.from_col col ty with
  | .panic => .panic
  | .errNone => .errNone
  | .ok dt =>
    match col.name with
    | none => .panic
    | some nm =>
      .ok { idx := col.col_id, data_type := dt, name := nm,
            nullable := !statusContains col.status ColParStatus.NULLABLE,
            computed := statusContains col.status ColParStatus.COMPUTED }

/-- Map a fallible parser over a list, stopping at the first failure. -/
def mapPR {α β : Type} (f : α → PResult β) : List α → PResult (List β)
  | [] => .ok []
  | a :: rest =>
    match f a with
    | .panic => .panic
    | .errNone => .errNone
    | .ok b => (mapPR f rest).map (b :: ·)

/-- Stable insertion into a list sorted ascending by `idx`: the inserted
element (which precedes the list elements in the original order) goes
before the first element of equal or larger index. -/
def insertSorted (a : ColumnType) : List ColumnType → List ColumnType
  | [] => [a]
  | b :: rest =>
    if a.idx ≤ b.idx then a :: b :: rest else b :: insertSorted a rest

/-- The stable ascending-by-`col_id` sort performed by Rust's `sort_by`
with `partial_cmp` of `i32` (any stable sort computes the same list). -/
def sortByIdx : List ColumnType → List ColumnType
  | [] => []
  | a :: rest => insertSorted a (sortByIdx rest)

/-- `Schema::from_col_par`: build a column per `(SysColPar, SysScalarType)`
pair, then stably sort ascending by `col_id`. -/
def Schema.from_col_par (column_info : List (SysColPar × SysScalarType)) :
    PResult Schema :=
  (mapPR (fun p => colParColumn p.1 p.2) column_info).map
    (fun columns => ⟨sortByIdx columns⟩)

/-! ### Encoders and concrete decoder fixtures -/

/-- Little-endian byte encoding of a `u32`. -/
def encodeU32 (n : Nat) : List Nat :=
  [n % 256, n / 256 % 256, n / 65536 % 256, n / 16777216 % 256]

/-- Little-endian byte encoding of an `i32` (two's complement). -/
def encodeI32 (i : ℤ) : List Nat := encodeU32 ((i.emod (2 ^ 32)).toNat)

/-- A schema of nine `Bit` columns. -/
def bitSchemaW : Schema := ⟨List.replicate 9 ⟨0, .Bit, "b", true, false⟩⟩

/-- A record with `column_count = 9` and fixed data
`[0b10101010, 0b00000001]`. -/
def bitRecW : Record :=
  { ty := .Primary, tag_a := 0, tag_b := 0, column_count := 9,
    fixed_data := [170, 1], null_bitmap := none, var_length_columns := none }

/-- A concrete `sys.colpars` row: `col_id = 3`, status bits all clear. -/
def colW : SysColPar :=
  { id := 1, number := 0, col_id := 3, name := some "c", xtype := 56,
    utype := 56, length := 4, prec := 10, scale := 0, collation_id := 0,
    status := 0, max_in_row := 0, xml_ns := 0, dflt := 0, chk := 0,
    idt_val := none }

/-- A concrete `sys.scalartypes` row naming the `int` type. -/
def tyW : SysScalarType :=
  { id := 56, sch_id := 4, name := "int", xtype := 56, length := 4,
    prec := 10, scale := 0, collation_id := 0, status := 0, created := 0,
    modified := 0, dflt := 0, chk := 0 }

/-- Sixteen bytes of a complex `NText` cell: a `LobPointer` with timestamp
`0x04030201` and record pointer `(9, 1, 0)`. -/
def ntextDataW : List Nat := [1, 2, 3, 4, 0, 0, 0, 0, 9, 0, 0, 0, 1, 0, 0, 0]

/-- The `LobPointer` parsed from `ntextDataW`. -/
def lobPW : LobPointer := ⟨67305985, ⟨⟨9, 1⟩, 0⟩⟩


/-! ## `raw_page.rs` pages and `table.rs` degraded scan -/

/-- `PageType` from `raw_page.rs`. -/
inductive PageType where
  | UnAlloc
  | Data
  | Index
  | TextMix
  | TextTree
  | Sort
  | GAM
  | SGAM
  | IAM
  | PFS
  | Boot
  | FileHeader
  | DiffMap
  | MLMap
  | CheckDBTemp
  | AlterIndexTemp
  | PreAlloc
  | Unknown (code : Nat)
deriving DecidableEq

/-- `PageType::parse`. -/
def PageType.parseNum (ty : Nat) : PageType :=
  match ty with
  | 0 => .UnAlloc
  | 1 => .Data
  | 2 => .Index
  | 3 => .TextMix
  | 4 => .TextTree
  | 7 => .Sort
  | 8 => .GAM
  | 9 => .SGAM
  | 10 => .IAM
  | 11 => .PFS
  | 13 => .Boot
  | 15 => .FileHeader
  | 16 => .DiffMap
  | 17 => .MLMap
  | 18 => .CheckDBTemp
  | 19 => .AlterIndexTemp
  | 20 => .PreAlloc
  | unk => .Unknown unk

/-- `PageHeader` from `raw_page.rs`. -/
structure PageHeader where
  ptr : PagePointer
  slot_count : Nat
  level : Nat
  p_min_len : Nat
  ty : PageType
  object_id : Nat
  index_id : Nat
  prev_page_ptr : Option PagePointer
  next_page_ptr : Option PagePointer
deriving DecidableEq

/-- `PageHeader::parse` (96-byte header, little-endian fixed offsets). -/
def PageHeader.parse (data : List Nat) : PResult PageHeader :=
  if data.length < 38 then .panic else
  match PagePointer.parse ((data.drop 32).take 6) with
  | .panic => .panic
  | .errNone => .panic
  | .ok none => .panic
  | .ok (some ptr) =>
    match PagePointer.parse ((data.drop 8).take 6),
          PagePointer.parse ((data.drop 16).take 6) with
    | .ok prev, .ok next =>
      .ok { ptr := ptr, ty := PageType.parseNum (data.getD 1 0 % 256),
            level := data.getD 3 0 % 256, index_id := leAt data 6 2,
            p_min_len := leAt data 14 2, slot_count := leAt data 22 2,
            object_id := leAt data 24 4, prev_page_ptr := prev,
            next_page_ptr := next }
    | _, _ => .panic

/-- `PAGE_SIZE` from `raw_page.rs`. -/
def PAGE_SIZE : Nat := 8192

/-- `RawPage`: the parsed header and the full page bytes (offsets include
the 96-byte header).  The page-provider reference is implicit — the
provider is passed alongside wherever the Rust code would use it. -/
structure RawPage where
  header : PageHeader
  data : List Nat
deriving DecidableEq

/-- `RawPage::record`: a slot index at or past `slot_count` is logged and
yields `None`; otherwise the 2-byte slot entry at `PAGE_SIZE - 2*(idx+1)`
gives the record's starting offset and the record is parsed there, with the
page-type hint and `p_min_len`. -/
def RawPage.record (p : RawPage) (idx : Nat) : PResult (Option Record) :=
  if p.header.slot_count ≤ idx then .ok none
  else
    if PAGE_SIZE < 2 * idx + 2 then .panic else
    if p.data.length < PAGE_SIZE - 2 * idx - 2 + 2 then .panic else
    if p.data.length < leAt p.data (PAGE_SIZE - 2 * idx - 2) 2 then .panic
    else
    match Record.parse (p.data.drop (leAt p.data (PAGE_SIZE - 2 * idx - 2) 2))
        (decide (p.header.ty = PageType.Index)) p.header.p_min_len with
    | .ok r => .ok (some r)
    | .errNone => .ok none
    | .panic => .panic

/-- The local record iterator (`local_records`): pull records at slots 0, 1,
… of this page only; the iteration ends at `slot_count` or at the first
record that fails to parse.  `slot_count - idx` steps always suffice. -/
def localRecordsGo (p : RawPage) : Nat → Nat → PResult (List Record)
  | _, 0 => .ok []
  | idx, fuel + 1 =>
    match p.record idx with
    | .panic => .panic
    | .errNone => .ok []
    | .ok none => .ok []
    | .ok (some r) => (localRecordsGo p (idx + 1) fuel).map (r :: ·)

/-- `RawPage::local_records` collected into a list. -/
def RawPage.local_records (p : RawPage) : PResult (List Record) :=
  localRecordsGo p 0 p.header.slot_count

/-- The `PageProvider` trait interface from `raw_page.rs`. -/
structure PageProvider where
  file_ids : List Nat
  num_pages : Nat → Nat
  get : PagePointer → Option RawPage

/-- `Table` from `table.rs` (the provider is held by value here). -/
structure Table where
  name : String
  page_provider : PageProvider
  schema : Schema
  partition_pointer : List PagePointer

/-- The page-selection closure of `Table::scan_db`: fetch page `(i, j)` and
keep it when its `p_min_len` matches and its type is `Data`. -/
def scanSelect (t : Table) (pml j i : Nat) : Option RawPage :=
  match t.page_provider.get ⟨i, j⟩ with
  | some page =>
    if page.header.p_min_len = pml ∧ page.header.ty = PageType.Data then
      some page
    else none
  | none => none

/-- The rows of one page in the scan: its local records, each parsed
through the table's schema. -/
def pageRows (s : Schema) (p : RawPage) : PResult (List Row) :=
  match p.local_records with
  | .panic => .panic
  | .errNone => .panic
  | .ok recs => mapPR (fun r => s.parse r) recs

/-- `flat_map` over a fallible per-element computation. -/
def flatMapPR {α β : Type} (f : α → PResult (List β)) :
    List α → PResult (List β)
  | [] => .ok []
  | a :: rest =>
    match f a with
    | .panic => .panic
    | .errNone => .errNone
    | .ok bs => (flatMapPR f rest).map (bs ++ ·)

/-- `Table::scan_db` from `table.rs`: read `p_min_len` from the partition's
first page (`partition_pointer[0]` indexing and the `get(..).unwrap()` both
panic when unavailable); then for every file id, in order, filter the pages
`0 .. num_pages` through the selection closure and emit each kept page's
local records parsed as rows. -/
def Table.scan_db (t : Table) : PResult (List Row) :=
  match t.partition_pointer.head? with
  | none => .panic
  | some first_ptr =>
    match t.page_provider.get first_ptr with
    | none => .panic
    | some first_page =>
      flatMapPR (fun j =>
        flatMapPR (fun page => pageRows t.schema page)
          ((List.range (t.page_provider.num_pages j)).filterMap
            (scanSelect t first_page.header.p_min_len j)))
        t.page_provider.file_ids

/-- Provenance-tagged local records: like `localRecordsGo` but keeping each
record's slot index. -/
def localRecordsTaggedGo (p : RawPage) :
    Nat → Nat → PResult (List (Nat × Record))
  | _, 0 => .ok []
  | idx, fuel + 1 =>
    match p.record idx with
    | .panic => .panic
    | .errNone => .ok []
    | .ok none => .ok []
    | .ok (some r) =>
      (localRecordsTaggedGo p (idx + 1) fuel).map ((idx, r) :: ·)

/-- The rows of one page tagged with `(file_id, page_id, slot)`. -/
def pageRowsTagged (s : Schema) (j i : Nat) (p : RawPage) :
    PResult (List ((Nat × Nat × Nat) × Row)) :=
  match localRecordsTaggedGo p 0 p.header.slot_count with
  | .panic => .panic
  | .errNone => .panic
  | .ok recs =>
    mapPR (fun sr => (s.parse sr.2).map (fun row => ((j, i, sr.1), row)))
      recs

/-- The degraded scan as the specification words it: visit files in
`file_ids()` order and, within each file, pages `0 .. num_pages` in
ascending order; a page whose type is `Data` and whose `p_min_len` matches
the partition's first page contributes its local records in slot order,
each tagged with its `(file_id, page_id, slot)` provenance. -/
def scan_db_spec (t : Table) : PResult (List ((Nat × Nat × Nat) × Row)) :=
  match t.partition_pointer.head? with
  | none => .panic
  | some first_ptr =>
    match t.page_provider.get first_ptr with
    | none => .panic
    | some first_page =>
      flatMapPR (fun j =>
        flatMapPR (fun i =>
          match scanSelect t first_page.header.p_min_len j i with
          | none => .ok []
          | some page => pageRowsTagged t.schema j i page)
          (List.range (t.page_provider.num_pages j)))
        t.page_provider.file_ids

/-- Strict lexicographic order on `(file_id, page_id, slot)` triples. -/
def tripleLt (a b : Nat × Nat × Nat) : Prop :=
  a.1 < b.1 ∨ (a.1 = b.1 ∧
    (a.2.1 < b.2.1 ∨ (a.2.1 = b.2.1 ∧ a.2.2 < b.2.2)))

/-- A provider with two empty `Data` pages, one per file. -/
def providerW : PageProvider :=
  { file_ids := [1, 2],
    num_pages := fun _ => 1,
    get := fun ptr =>
      if ptr.file_id = 1 ∨ ptr.file_id = 2 then
        some { header := { ptr := ptr, slot_count := 0, level := 0,
                           p_min_len := 11, ty := .Data, object_id := 0,
                           index_id := 0, prev_page_ptr := none,
                           next_page_ptr := none }, data := [] }
      else none }

/-- A table over `providerW` with an empty schema and one partition. -/
def tableW : Table :=
  { name := "t", page_provider := providerW, schema := ⟨[]⟩,
    partition_pointer := [⟨0, 1⟩] }

/-! ## Theorems -/

lemma sliceOk_eq_some {data : List Nat} {a b : Nat} {s : List Nat}
    (h : sliceOk data a b = some s) :
    s.length = b - a ∧ a ≤ b ∧ b ≤ data.length := by
  unfold sliceOk at h
  split at h
  case isTrue hc =>
    cases h
    refine ⟨?_, hc.1, hc.2⟩
    simp only [List.length_take, List.length_drop]
    omega
  case isFalse hc => cases h


lemma getD_drop (l : List Nat) (a i : Nat) :
    (l.drop a).getD i 0 = l.getD (a + i) 0 := by
  simp [List.getD_eq_getElem?_getD, List.getElem?_drop]

lemma getD_take (l : List Nat) (k i : Nat) (h : i < k) :
    (l.take k).getD i 0 = l.getD i 0 := by
  simp [List.getD_eq_getElem?_getD, List.getElem?_take, h]

lemma leAt_drop (l : List Nat) (a : Nat) :
    ∀ n p, leAt (l.drop a) p n = leAt l (a + p) n := by
  intro n
  induction n with
  | zero => intro p; rfl
  | succ m ih =>
    intro p
    simp only [leAt, getD_drop, ih (p + 1), ← Nat.add_assoc]

lemma leAt_take (l : List Nat) (k : Nat) :
    ∀ n p, p + n ≤ k → leAt (l.take k) p n = leAt l p n := by
  intro n
  induction n with
  | zero => intro p _; rfl
  | succ m ih =>
    intro p hp
    simp only [leAt, getD_take l k p (by omega), ih (p + 1) (by omega)]

lemma leAt_slice {data : List Nat} {a b : Nat} {s : List Nat}
    (h : sliceOk data a b = some s) :
    ∀ n p, p + n ≤ b - a → leAt s p n = leAt data (a + p) n := by
  intro n p hpn
  have hs : s = (data.drop a).take (b - a) := by
    unfold sliceOk at h
    split at h
    · exact (Option.some.injEq .. ▸ h).symm
    · cases h
  rw [hs, leAt_take _ _ _ _ hpn, leAt_drop]

lemma read_ptr_slice {fd : List Nat} {a b : Nat} {s : List Nat}
    (h : sliceOk fd a b = some s) (d : Nat) (hd : d + 8 ≤ b - a)
    (hfid : leAt fd (a + d + 4) 2 ≠ 0) :
    RecordPointer.parse (s.drop d) =
      .ok (some ⟨⟨leAt fd (a + d) 4, leAt fd (a + d + 4) 2⟩,
                 leAt fd (a + d + 6) 2⟩) := by
  have hlen : s.length = b - a := (sliceOk_eq_some h).1
  have e4 : leAt (s.drop d) 4 2 = leAt fd (a + d + 4) 2 := by
    rw [leAt_drop, leAt_slice h 2 (d + 4) (by omega), ← Nat.add_assoc]
  have e0 : leAt (s.drop d) 0 4 = leAt fd (a + d) 4 := by
    rw [leAt_drop, leAt_slice h 4 (d + 0) (by omega)]
    norm_num
  have e6 : leAt (s.drop d) 6 2 = leAt fd (a + d + 6) 2 := by
    rw [leAt_drop, leAt_slice h 2 (d + 6) (by omega), ← Nat.add_assoc]
  unfold RecordPointer.parse
  rw [if_neg (by simp only [List.length_drop]; omega), e4, e0, e6,
      if_neg hfid, if_neg (by simp only [List.length_drop]; omega)]

lemma lobLoop_ne_nothing (gp : GetRecord) :
    ∀ fuel entries acc, lobLoop gp fuel entries acc ≠ .nothing := by
  intro fuel
  induction fuel with
  | zero =>
    intro entries acc
    cases entries <;> simp [lobLoop]
  | succ m ih =>
    intro entries acc
    cases entries with
    | nil => simp [lobLoop]
    | cons e rest =>
      simp only [lobLoop]
      rcases hr : lobRound gp (e :: rest) with ⟨bs, ns⟩ | _ | _ <;>
        simp only []
      · exact ih ns (acc ++ bs)
      · simp
      · simp


/-- Claim C2, counterexample: on a record whose type field is `Forwarded`
(type bits = 1), `Record::parse` panics on its `assert!` instead of
returning `None`. -/
theorem c2_counterexample :
    Record.parse [2, 0, 0, 0] false 5 = .panic ∧
    Record.parse [2, 0, 0, 0] false 5 ≠ .errNone := by
  decide

/-- Claim C2 (amended): for every input byte slice whose record-type field
(bits 1..3 of byte 0) denotes a type outside `{Primary, Index, Blob}`,
`Record::parse` aborts by a panicking assertion (`assert!(matches!(..))`),
not by returning `None`. -/
theorem c2_unsupported_type_panics (data : List Nat) (is_index : Bool)
    (p_min_len : Nat) (hlen : 2 ≤ data.length)
    (h0 : recTyBits data ≠ 0) (h3 : recTyBits data ≠ 3)
    (h4 : recTyBits data ≠ 4) :
    Record.parse data is_index p_min_len = .panic := by
  have hn : recTyBits data < 8 := by
    unfold recTyBits; omega
  simp only [Record.parse]
  rw [if_neg (show ¬ data.length < 1 by omega),
      if_neg (show ¬ (is_index = false ∧ data.length < 2) by
        rintro ⟨_, hc⟩; omega),
      if_pos ?_]
  generalize recTyBits data = n at hn h0 h3 h4
  interval_cases n <;> simp_all [RecordType.parseNum]

/-- Claim C2, witness for the amended theorem at a concrete ghost-data
record (type bits = 6). -/
theorem c2_witness : Record.parse [12, 0, 0, 0] false 7 = .panic :=
  c2_unsupported_type_panics [12, 0, 0, 0] false 7 (by decide) (by decide)
    (by decide) (by decide)


lemma recNullBitmap_ok {tag_a cc : Nat} {data : List Nat} {off : Nat}
    {nb : Option (List Nat)} {off2 : Nat}
    (h : recNullBitmap tag_a cc data off = .ok (nb, off2)) :
    ∀ bytes, nb = some bytes → bytes.length = (cc + 7) / 8 := by
  intro bytes hb
  unfold recNullBitmap at h
  split at h
  · split at h
    · cases h
    · rename_i bs heq
      simp only [PResult.ok.injEq, Prod.mk.injEq] at h
      obtain ⟨h1, h2⟩ := h
      subst h1
      cases hb
      have := (sliceOk_eq_some heq).1
      omega
  · simp only [PResult.ok.injEq, Prod.mk.injEq] at h
    obtain ⟨h1, _⟩ := h
    subst h1
    cases hb

lemma record_parse_bitmap_size {data : List Nat} {ii : Bool} {pml : Nat}
    {r : Record} (h : Record.parse data ii pml = .ok r) {bytes : List Nat}
    (hb : r.null_bitmap = some bytes) :
    bytes.length = (r.column_count + 7) / 8 := by
  simp only [Record.parse] at h
  repeat' split at h
  all_goals cases h
  all_goals try dsimp only at hb ⊢
  all_goals cases hb
  all_goals rename_i hq
  all_goals exact recNullBitmap_ok hq bytes rfl


/-- Claim C3, counterexample: the record parsed from
`[0x10, 0, 4, 0, 0, 0]` has a (zero-byte) null bitmap, and
`is_column_null(0)` panics on the out-of-range `BitSlice` index instead of
returning `false`. -/
theorem c3_counterexample :
    (Record.parse [16, 0, 4, 0, 0, 0] false 0).map
        (fun r => r.null_bitmap) = .ok (some []) ∧
    (Record.parse [16, 0, 4, 0, 0, 0] false 0).map
        (fun r => r.is_column_null 0) = .ok .panic ∧
    (Record.parse [16, 0, 4, 0, 0, 0] false 0).map
        (fun r => r.is_column_null 0) ≠ .ok (.ok false) := by
  decide

/-- Claim C3 (amended): for every parsed record, `is_column_null(i)` is
`false` for every `i` when the record has no null bitmap; when a bitmap is
present it has exactly `⌈column_count/8⌉` bytes, `is_column_null(i)` reads
bit `i` (LSB-first) for `i` below the bitmap bit length, and it panics — an
out-of-bounds `BitSlice` index — rather than returning `false` for `i` at or
beyond the bitmap bit length.  (The added-columns tolerance lives in
`Schema::parse`, which checks `column_count` before consulting the bitmap.) -/
theorem c3_is_column_null_amended (data : List Nat) (ii : Bool) (pml : Nat)
    (r : Record) (h : Record.parse data ii pml = .ok r) :
    (r.null_bitmap = none → ∀ i, r.is_column_null i = .ok false) ∧
    ∀ bytes, r.null_bitmap = some bytes →
      bytes.length = (r.column_count + 7) / 8 ∧
      ∀ i, (i < 8 * bytes.length →
              r.is_column_null i =
                .ok ((bytes.getD (i / 8) 0 % 256).testBit (i % 8))) ∧
           (8 * bytes.length ≤ i → r.is_column_null i = .panic) := by
  constructor
  · intro hnb i
    unfold Record.is_column_null
    rw [hnb]
  · intro bytes hb
    refine ⟨record_parse_bitmap_size h hb, fun i => ⟨fun hi => ?_, fun hi => ?_⟩⟩
    · unfold Record.is_column_null
      rw [hb]
      dsimp only
      rw [if_pos hi]
    · unfold Record.is_column_null
      rw [hb]
      dsimp only
      rw [if_neg (by omega)]

/-- Claim C3, witness: the amended theorem applied to the concrete record
parsed from `[0x10, 0, 4, 0, 0, 0]`. -/
theorem c3_witness :
    ({ ty := .Primary, tag_a := 1, tag_b := 0, column_count := 0,
       fixed_data := [], null_bitmap := some [],
       var_length_columns := none } : Record).is_column_null 0 = .panic := by
  have h : Record.parse [16, 0, 4, 0, 0, 0] false 0 =
      .ok { ty := .Primary, tag_a := 1, tag_b := 0, column_count := 0,
            fixed_data := [], null_bitmap := some [],
            var_length_columns := none } := by decide
  exact (((c3_is_column_null_amended [16, 0, 4, 0, 0, 0] false 0 _ h).2
    [] rfl).2 0).2 (by decide)


/-- Claim C4, counterexample: a parsed `LargeRootYukon` node whose header
says `cur_links = 1` but whose 16-byte fixed data has no entry table:
`read_idx(0)` panics (slice out of bounds) although `0 < cur_links`, so
`read_idx` is not total and not `Some` for every `i < cur_links`. -/
theorem c4_counterexample :
    (LobLargeRootYukon.parse recC4).map (fun n => n.cur_links) = .ok 1 ∧
    (LobLargeRootYukon.parse recC4).map (fun n => n.read_idx 0) =
      .ok .panic := by
  decide

/-- Claim C4 (amended): for every `LargeRootYukon` or `Internal` node,
`read_idx(i)` returns `None` exactly when `i ≥ cur_links`; for `i <
cur_links` it returns `Some` pointer read from the entry table (stride 12 at
offset 20, resp. stride 16 indexed `16*(i+1)..16*(i+2)`) provided the fixed
data extends through the entry and the entry's `file_id` field is nonzero —
otherwise it panics (slice out of bounds, or `unwrap` of a null record
pointer) rather than yielding a value. -/
theorem c4_read_idx_amended (y : LobLargeRootYukon) (n : LobInternal)
    (idx : Nat) :
    (y.read_idx idx = .ok none ↔ y.cur_links ≤ idx) ∧
    (idx < y.cur_links → 20 + 12 * (idx + 1) ≤ y.record.fixed_data.length →
       leAt y.record.fixed_data (20 + 12 * idx + 8) 2 ≠ 0 →
       y.read_idx idx =
         .ok (some ⟨⟨leAt y.record.fixed_data (20 + 12 * idx + 4) 4,
                     leAt y.record.fixed_data (20 + 12 * idx + 8) 2⟩,
                    leAt y.record.fixed_data (20 + 12 * idx + 10) 2⟩)) ∧
    (n.read_idx idx = .ok none ↔ n.cur_links ≤ idx) ∧
    (idx < n.cur_links → 16 * (idx + 2) ≤ n.record.fixed_data.length →
       leAt n.record.fixed_data (16 * (idx + 1) + 12) 2 ≠ 0 →
       n.read_idx idx =
         .ok (some ⟨⟨leAt n.record.fixed_data (16 * (idx + 1) + 8) 4,
                     leAt n.record.fixed_data (16 * (idx + 1) + 12) 2⟩,
                    leAt n.record.fixed_data (16 * (idx + 1) + 14) 2⟩)) := by
  refine ⟨⟨?_, ?_⟩, ?_, ⟨?_, ?_⟩, ?_⟩
  · intro hres
    by_contra hlt
    unfold LobLargeRootYukon.read_idx at hres
    rw [if_neg hlt] at hres
    split at hres
    · cases hres
    · split at hres <;> cases hres
  · intro hle
    unfold LobLargeRootYukon.read_idx
    rw [if_pos hle]
  · intro hlt hlen hfid
    have hslice : sliceOk y.record.fixed_data (20 + 12 * idx)
        (20 + 12 * (idx + 1)) =
        some ((y.record.fixed_data.drop (20 + 12 * idx)).take
          (20 + 12 * (idx + 1) - (20 + 12 * idx))) := by
      unfold sliceOk
      rw [if_pos ⟨by omega, hlen⟩]
    have hrp := read_ptr_slice hslice 4 (by omega)
      (by rw [show 20 + 12 * idx + 4 + 4 = 20 + 12 * idx + 8 by omega]
          exact hfid)
    have hslen := (sliceOk_eq_some hslice).1
    unfold LobLargeRootYukon.read_idx
    rw [if_neg (by omega), hslice]
    dsimp only
    unfold SizedRecordPointer.parse
    rw [if_neg (by omega), hrp]
  · intro hres
    by_contra hlt
    unfold LobInternal.read_idx at hres
    rw [if_neg hlt] at hres
    split at hres
    · cases hres
    · split at hres <;> cases hres
  · intro hle
    unfold LobInternal.read_idx
    rw [if_pos hle]
  · intro hlt hlen hfid
    have hslice : sliceOk n.record.fixed_data (16 * (idx + 1))
        (16 * (idx + 2)) =
        some ((n.record.fixed_data.drop (16 * (idx + 1))).take
          (16 * (idx + 2) - 16 * (idx + 1))) := by
      unfold sliceOk
      rw [if_pos ⟨by omega, hlen⟩]
    have hrp := read_ptr_slice hslice 8 (by omega)
      (by rw [show 16 * (idx + 1) + 8 + 4 = 16 * (idx + 1) + 12 by omega]
          exact hfid)
    have hslen := (sliceOk_eq_some hslice).1
    unfold LobInternal.read_idx
    rw [if_neg (by omega), hslice]
    dsimp only
    unfold RecordPointerWithOffset.parse
    rw [if_neg (by omega), hrp]

/-- Claim C4, witness: the amended theorem applied to concrete well-formed
one-entry `LargeRootYukon` and `Internal` nodes. -/
theorem c4_witness :
    LobLargeRootYukon.read_idx lobYukonW 0 = .ok (some ⟨⟨1, 1⟩, 0⟩) ∧
    LobInternal.read_idx lobInternalW 0 = .ok (some ⟨⟨5, 1⟩, 0⟩) := by
  constructor
  · exact ((c4_read_idx_amended lobYukonW lobInternalW 0).2.1 (by decide)
      (by decide) (by decide)).trans (by decide)
  · exact ((c4_read_idx_amended lobYukonW lobInternalW 0).2.2.2 (by decide)
      (by decide) (by decide)).trans (by decide)


/-- Claim C1, counterexample: the root at `(9,1,0)` is a `LargeRootYukon`
with `cur_links = 2`; its second child pointer `(2,1,0)` cannot be resolved
by the provider, yet `LobPointer::read` does not abort: it returns the
extent collected from the first child instead of nothing.  (The unresolved
child merely ends that node's sub-entry iteration: `LobLargeRootYukon::read`
propagates the failed `get_record` as `None`, which the iterator treats as
exhaustion, so the dead `entry?` in `LobPointer::read` never fires.) -/
theorem c1_counterexample :
    (LobLargeRootYukon.parse rootRecC1).map
        (fun n => (n.cur_links, n.read_idx 1)) =
      .ok (2, .ok (some ⟨⟨2, 1⟩, 0⟩)) ∧
    gpC1 ⟨⟨2, 1⟩, 0⟩ = none ∧
    LobPointer.read gpC1 5 ⟨0, ⟨⟨9, 1⟩, 0⟩⟩ = .blocks [(3, [9, 9, 9])] ∧
    LobPointer.read gpC1 5 ⟨0, ⟨⟨9, 1⟩, 0⟩⟩ ≠ .nothing := by
  decide

/-- Claim C1 (amended): `LobPointer::read` returns nothing exactly when the
ROOT record is missing or fails to parse as a LOB node.  Once the root has
parsed, the walk never returns nothing: an unresolvable child pointer in a
`LargeRootYukon` or `Internal` node silently ends that node's child
enumeration and the walk continues, returning the extents collected so far
as a partial result. -/
theorem c1_read_abort_amended (gp : GetRecord) (fuel : Nat) (p : LobPointer) :
    (gp p.ptr = none → LobPointer.read gp fuel p = .nothing) ∧
    (∀ r, gp p.ptr = some r → LobEntry.parse r = .errNone →
        LobPointer.read gp fuel p = .nothing) ∧
    (∀ r e, gp p.ptr = some r → LobEntry.parse r = .ok e →
        LobPointer.read gp fuel p ≠ .nothing) := by
  refine ⟨?_, ?_, ?_⟩
  · intro h
    unfold LobPointer.read
    rw [h]
  · intro r h hp
    unfold LobPointer.read
    rw [h]
    dsimp only
    rw [hp]
  · intro r e h hp
    unfold LobPointer.read
    rw [h]
    dsimp only
    rw [hp]
    exact lobLoop_ne_nothing gp fuel [e] []

/-- Claim C1, witness: the amended theorem at the concrete provider — a
dangling pointer gives nothing, while the walk from the resolvable root
(whose second child is missing) gives a non-`nothing` result. -/
theorem c1_witness :
    LobPointer.read gpC1 3 ⟨0, ⟨⟨7, 7⟩, 7⟩⟩ = .nothing ∧
    LobPointer.read gpC1 5 ⟨0, ⟨⟨9, 1⟩, 0⟩⟩ ≠ .nothing := by
  constructor
  · exact (c1_read_abort_amended gpC1 3 ⟨0, ⟨⟨7, 7⟩, 7⟩⟩).1 (by decide)
  · exact (c1_read_abort_amended gpC1 5 ⟨0, ⟨⟨9, 1⟩, 0⟩⟩).2.2 rootRecC1
      (.LargeRootYukon ⟨0, .LargeRootYukon, 2, 2, 0, rootRecC1⟩)
      (by decide) (by decide)


lemma leAt_append_left (l1 l2 : List Nat) :
    ∀ n p, p + n ≤ l1.length → leAt (l1 ++ l2) p n = leAt l1 p n := by
  intro n
  induction n with
  | zero => intro p _; rfl
  | succ m ih =>
    intro p hp
    have hg : (l1 ++ l2).getD p 0 = l1.getD p 0 := by
      simp only [List.getD_eq_getElem?_getD, List.getElem?_append_left
        (show p < l1.length by omega)]
    simp only [leAt, hg, ih (p + 1) (by omega)]

lemma leAt_append_right (l1 l2 : List Nat) :
    ∀ n p, l1.length ≤ p →
      leAt (l1 ++ l2) p n = leAt l2 (p - l1.length) n := by
  intro n
  induction n with
  | zero => intro p _; rfl
  | succ m ih =>
    intro p hp
    have hg : (l1 ++ l2).getD p 0 = l2.getD (p - l1.length) 0 := by
      simp only [List.getD_eq_getElem?_getD]
      rw [List.getElem?_append_right hp]
    simp only [leAt, hg, ih (p + 1) (by omega)]
    have : p + 1 - l1.length = p - l1.length + 1 := by omega
    rw [this]

lemma encodeU32_length (n : Nat) : (encodeU32 n).length = 4 := rfl

lemma leAt_encodeU32 (n : Nat) (h : n < 2 ^ 32) :
    leAt (encodeU32 n) 0 4 = n := by
  have h32 : ((2 : ℕ) ^ 32) = 4294967296 := by norm_num
  rw [h32] at h
  simp only [encodeU32, leAt, List.getD_cons_zero, List.getD_cons_succ]
  omega

lemma toSigned32_encode (i : ℤ) (h1 : -(2 ^ 31) ≤ i) (h2 : i < 2 ^ 31) :
    toSigned 32 ((i.emod (2 ^ 32)).toNat) = i := by
  unfold toSigned
  simp only [show ((2 : ℤ) ^ 32) = 4294967296 from by norm_num,
             show ((2 : ℕ) ^ (32 - 1)) = 2147483648 from by norm_num,
             show ((2 : ℤ) ^ 31) = 2147483648 from by norm_num] at h1 h2 ⊢
  have hb1 : 0 ≤ Int.emod i 4294967296 := Int.emod_nonneg i (by norm_num)
  have hb2 : Int.emod i 4294967296 < 4294967296 :=
    Int.emod_lt_of_pos i (by norm_num)
  have hdm : 4294967296 * (i / 4294967296) + Int.emod i 4294967296 = i :=
    Int.ediv_add_emod i 4294967296
  split <;> omega

lemma emod32_toNat_lt (i : ℤ) : (i.emod (2 ^ 32)).toNat < 2 ^ 32 := by
  simp only [show ((2 : ℤ) ^ 32) = 4294967296 from by norm_num,
             show ((2 : ℕ) ^ 32) = 4294967296 from by norm_num]
  have hb1 : 0 ≤ Int.emod i 4294967296 := Int.emod_nonneg i (by norm_num)
  have hb2 : Int.emod i 4294967296 < 4294967296 :=
    Int.emod_lt_of_pos i (by norm_num)
  have hdm : 4294967296 * (i / 4294967296) + Int.emod i 4294967296 = i :=
    Int.ediv_add_emod i 4294967296
  omega


/-- Claim C6: fixed-length `DateTime` decoding reads `(time: i32, date: i32)`
little-endian and returns 1900-01-01 00:00:00 plus `date` days plus
`time * 1000 / 300` milliseconds, the days being omitted when `date ≤ 0` or
`date ≥ 1,000,000`; in particular `(time = 25_920_000, date = 44_927)`
decodes to `44_928` full days of milliseconds — the midnight following
1900-01-01 + 44_927 days — since `25_920_000 * 1000 / 300 = 86_400_000`. -/
theorem c6_datetime_decode :
    (∀ t d : ℤ, -(2 ^ 31) ≤ t → t < 2 ^ 31 → -(2 ^ 31) ≤ d → d < 2 ^ 31 →
      SqlType.DateTime.parse BitParser.new ⟨encodeI32 t ++ encodeI32 d, 0⟩ =
        .ok (.DateTime ((if d < 1000000 ∧ 0 < d then d * 86400000 else 0) +
               Int.tdiv (t * 1000) 300), BitParser.new,
             ⟨encodeI32 t ++ encodeI32 d, 8⟩)) ∧
    SqlType.DateTime.parse BitParser.new
        ⟨encodeU32 25920000 ++ encodeU32 44927, 0⟩ =
      .ok (.DateTime ((44927 + 1) * 86400000), BitParser.new,
           ⟨encodeU32 25920000 ++ encodeU32 44927, 8⟩) := by
  constructor
  · intro t d ht1 ht2 hd1 hd2
    have hlen : (encodeI32 t ++ encodeI32 d).length = 8 := by
      simp [encodeI32, encodeU32]
    have hr1 : Cursor.readLE ⟨encodeI32 t ++ encodeI32 d, 0⟩ 4 =
        .ok ((t.emod (2 ^ 32)).toNat, ⟨encodeI32 t ++ encodeI32 d, 4⟩) := by
      unfold Cursor.readLE
      rw [if_pos (by simp [hlen])]
      dsimp only
      rw [leAt_append_left _ _ 4 0 (by simp [encodeI32, encodeU32])]
      rw [show encodeI32 t = encodeU32 ((t.emod (2 ^ 32)).toNat) from rfl]
      rw [leAt_encodeU32 _ (emod32_toNat_lt t)]
    have hr2 : Cursor.readLE ⟨encodeI32 t ++ encodeI32 d, 4⟩ 4 =
        .ok ((d.emod (2 ^ 32)).toNat, ⟨encodeI32 t ++ encodeI32 d, 8⟩) := by
      unfold Cursor.readLE
      rw [if_pos (by simp [hlen])]
      dsimp only
      have hlen1 : (encodeI32 t).length = 4 := by simp [encodeI32, encodeU32]
      rw [leAt_append_right (encodeI32 t) (encodeI32 d) 4 4 (by rw [hlen1]),
          hlen1, Nat.sub_self]
      rw [show encodeI32 d = encodeU32 ((d.emod (2 ^ 32)).toNat) from rfl]
      rw [leAt_encodeU32 _ (emod32_toNat_lt d)]
    unfold SqlType.parse
    rw [hr1]
    dsimp only
    rw [hr2]
    dsimp only
    rw [toSigned32_encode t ht1 ht2, toSigned32_encode d hd1 hd2]
  · decide

/-- Claim C6, witness: the general statement at `(time = 5, date = 0)` —
the date is omitted and only `5 * 1000 / 300` milliseconds remain. -/
theorem c6_witness :
    SqlType.DateTime.parse BitParser.new ⟨encodeI32 5 ++ encodeI32 0, 0⟩ =
      .ok (.DateTime ((if (0 : ℤ) < 1000000 ∧ (0 : ℤ) < 0 then 0 * 86400000
             else 0) + Int.tdiv (5 * 1000) 300), BitParser.new,
           ⟨encodeI32 5 ++ encodeI32 0, 8⟩) :=
  c6_datetime_decode.1 5 0 (by norm_num) (by norm_num) (by norm_num)
    (by norm_num)


/-- Claim C7: bits are decoded LSB-first from a persistent bit cursor.
When bits remain (`read_bits ≠ 8`) no byte is fetched — the cursor is
untouched and the low bit of the current byte is emitted; when all 8 bits
are spent exactly one byte is fetched from the fixed-data cursor.  Nine
consecutive `Bit` columns over the two bytes `0b10101010 0b00000001`
decode to `[false,true,false,true,false,true,false,true,true]`. -/
theorem c7_bit_decoding :
    (∀ (bp : BitParser) (c : Cursor), bp.read_bits ≠ 8 →
      bp.read_bit c = .ok (decide (bp.current_byte % 2 = 1),
        ⟨bp.current_byte / 2, bp.read_bits + 1⟩, c)) ∧
    (∀ (bp : BitParser) (c : Cursor), bp.read_bits = 8 →
      c.pos + 1 ≤ c.data.length →
      bp.read_bit c = .ok (decide (leAt c.data c.pos 1 % 2 = 1),
        ⟨leAt c.data c.pos 1 / 2, 1⟩, ⟨c.data, c.pos + 1⟩)) ∧
    Schema.parse bitSchemaW bitRecW =
      .ok ⟨[some (.Bit false), some (.Bit true), some (.Bit false),
            some (.Bit true), some (.Bit false), some (.Bit true),
            some (.Bit false), some (.Bit true), some (.Bit true)]⟩ := by
  refine ⟨?_, ?_, by decide⟩
  · intro bp c h
    unfold BitParser.read_bit
    rw [if_neg h]
  · intro bp c h hc
    unfold BitParser.read_bit
    rw [if_pos h]
    unfold Cursor.readLE
    rw [if_pos hc]

/-- Claim C7, witness: the lazy branch at a concrete half-consumed bit
cursor, and the fetch branch at a concrete fresh cursor. -/
theorem c7_witness :
    BitParser.read_bit ⟨5, 3⟩ ⟨[7], 0⟩ = .ok (true, ⟨2, 4⟩, ⟨[7], 0⟩) ∧
    BitParser.read_bit ⟨0, 8⟩ ⟨[6], 0⟩ = .ok (false, ⟨3, 1⟩, ⟨[6], 1⟩) := by
  constructor
  · exact (c7_bit_decoding.1 ⟨5, 3⟩ ⟨[7], 0⟩ (by decide)).trans (by decide)
  · exact (c7_bit_decoding.2.1 ⟨0, 8⟩ ⟨[6], 0⟩ (by decide)
      (by decide)).trans (by decide)

lemma schemaParseGo_length (r : Record) :
    ∀ (cols : List ColumnType) (i : Nat) (values : List (Option SqlValue))
      (cursor : Cursor) (bp : BitParser) (v n : Nat)
      (res : List (Option SqlValue)),
      schemaParseGo r cols i values cursor bp v n = .ok res →
      res.length = values.length := by
  intro cols
  induction cols with
  | nil =>
    intro i values cursor bp v n res h
    cases h
    rfl
  | cons col rest ih =>
    intro i values cursor bp v n res h
    unfold schemaParseGo at h
    repeat' split at h
    all_goals first
      | cases h
      | exact ih _ _ _ _ _ _ _ h
      | (rw [ih _ _ _ _ _ _ _ h]; exact List.length_set ..)

/-- Claim C8: for every schema and every record, a `Row` produced by
`Schema::parse` has exactly one value slot per schema column — the value
vector is preallocated at schema size and only written in place. -/
theorem c8_row_length (s : Schema) (r : Record) (row : Row)
    (h : Schema.parse s r = .ok row) :
    row.values.length = s.columns.length := by
  unfold Schema.parse at h
  rcases hg : schemaParseGo r s.columns 0
      (List.replicate s.columns.length none) ⟨r.fixed_data, 0⟩
      BitParser.new 0 0 with res | _ | _ <;> rw [hg] at h <;> cases h
  rw [schemaParseGo_length r _ _ _ _ _ _ _ _ hg, List.length_replicate]

/-- Claim C8, witness: the nine-bit row from claim C7's fixture has nine
value slots. -/
theorem c8_witness :
    (Row.mk [some (.Bit false), some (.Bit true), some (.Bit false),
             some (.Bit true), some (.Bit false), some (.Bit true),
             some (.Bit false), some (.Bit true),
             some (.Bit true)]).values.length =
      bitSchemaW.columns.length :=
  c8_row_length bitSchemaW bitRecW _ (by decide)

/-- Claim C10: decoding an `NText` column through `parse_var_length` never
yields the `NText` value variant: an empty slice gives `Image(None)`, and
any successfully decoded non-empty slice was complex and exactly 16 bytes
and gives `Image(Some(LobPointer))`. -/
theorem c10_ntext_decodes_as_image (complex : Bool) (data : List Nat) :
    (data = [] →
      SqlType.NText.parse_var_length complex data = .ok (.Image none)) ∧
    (∀ v, SqlType.NText.parse_var_length complex data = .ok v →
      ∃ o, v = .Image o) ∧
    (∀ v, SqlType.NText.parse_var_length complex data = .ok v → data ≠ [] →
      complex = true ∧ data.length = 16 ∧ ∃ p, v = .Image (some p)) := by
  refine ⟨?_, ?_, ?_⟩
  · intro h
    subst h
    rfl
  · intro v hv
    simp only [SqlType.parse_var_length] at hv
    split at hv
    · split at hv
      · cases hv
      · split at hv
        · cases hv
        · rcases hp : LobPointer.parse data with p | _ | _ <;>
            rw [hp] at hv <;> simp only [PResult.map] at hv <;> cases hv
          exact ⟨some p, rfl⟩
    · cases hv
      exact ⟨none, rfl⟩
  · intro v hv hne
    simp only [SqlType.parse_var_length] at hv
    rw [if_pos hne] at hv
    split at hv
    · cases hv
    · split at hv
      · cases hv
      · rename_i hcf hl16
        rcases hp : LobPointer.parse data with p | _ | _ <;>
          rw [hp] at hv <;> simp only [PResult.map] at hv <;> cases hv
        exact ⟨by cases complex <;> simp_all, by omega, p, rfl⟩

/-- Claim C10, witness: the empty and the 16-byte complex cases at concrete
inputs. -/
theorem c10_witness :
    SqlType.NText.parse_var_length true [] = .ok (.Image none) ∧
    (true = true ∧ ntextDataW.length = 16 ∧
      ∃ p, SqlValue.Image (some lobPW) = SqlValue.Image (some p)) :=
  ⟨(c10_ntext_decodes_as_image true []).1 rfl,
   (c10_ntext_decodes_as_image true ntextDataW).2.2 (.Image (some lobPW))
     (by decide) (by decide)⟩


lemma mapPR_ok_mem {α β : Type} {f : α → PResult β} :
    ∀ {l : List α} {l2 : List β}, mapPR f l = .ok l2 →
      (∀ b ∈ l2, ∃ a ∈ l, f a = .ok b) ∧
      (∀ a ∈ l, ∃ b ∈ l2, f a = .ok b) := by
  intro l
  induction l with
  | nil =>
    intro l2 h
    cases h
    simp
  | cons a rest ih =>
    intro l2 h
    unfold mapPR at h
    split at h
    · cases h
    · cases h
    · rename_i b hb
      rcases hr : mapPR f rest with tail | _ | _ <;> rw [hr] at h <;>
        simp only [PResult.map] at h <;> cases h
      obtain ⟨ih1, ih2⟩ := ih hr
      constructor
      · intro c hcm
        rcases List.mem_cons.mp hcm with rfl | hc
        · exact ⟨a, by simp, hb⟩
        · obtain ⟨x, hx, hfx⟩ := ih1 c hc
          exact ⟨x, by simp [hx], hfx⟩
      · intro x hxm
        rcases List.mem_cons.mp hxm with rfl | hx
        · exact ⟨b, by simp, hb⟩
        · obtain ⟨c, hc, hfc⟩ := ih2 x hx
          exact ⟨c, by simp [hc], hfc⟩

lemma insertSorted_mem (a c : ColumnType) :
    ∀ l : List ColumnType, c ∈ insertSorted a l ↔ c = a ∨ c ∈ l := by
  intro l
  induction l with
  | nil => simp [insertSorted]
  | cons b rest ih =>
    unfold insertSorted
    split
    · simp only [List.mem_cons]
    · simp only [List.mem_cons, ih]
      tauto

lemma sortByIdx_mem (c : ColumnType) :
    ∀ l : List ColumnType, c ∈ sortByIdx l ↔ c ∈ l := by
  intro l
  induction l with
  | nil => simp [sortByIdx]
  | cons b rest ih =>
    unfold sortByIdx
    rw [insertSorted_mem]
    simp only [List.mem_cons, ih]

lemma colParColumn_ok {col : SysColPar} {ty : SysScalarType}
    {c : ColumnType} (h : colParColumn col ty = .ok c) :
    c.idx = col.col_id ∧
    c.nullable = !statusContains col.status ColParStatus.NULLABLE ∧
    c.computed = statusContains col.status ColParStatus.COMPUTED := by
  unfold colParColumn at h
  repeat' split at h
  all_goals cases h
  all_goals exact ⟨rfl, rfl, rfl⟩

/-- Claim C9: for every `(SysColPar, SysScalarType)` pair accepted by
`Schema::from_col_par`, the produced column's `nullable` field is the
negation of the catalog flag: `nullable` holds exactly when the status does
NOT contain the `NULLABLE` bit (bit 0).  Both directions: every output
column comes from such a pair, and every input pair is represented. -/
theorem c9_nullable_negation (pairs : List (SysColPar × SysScalarType))
    (s : Schema) (h : Schema.from_col_par pairs = .ok s) :
    (∀ c ∈ s.columns, ∃ p ∈ pairs, c.idx = p.1.col_id ∧
      c.nullable = !statusContains p.1.status ColParStatus.NULLABLE) ∧
    (∀ p ∈ pairs, ∃ c ∈ s.columns, c.idx = p.1.col_id ∧
      c.nullable = !statusContains p.1.status ColParStatus.NULLABLE) := by
  unfold Schema.from_col_par at h
  rcases hm : mapPR (fun p => colParColumn p.1 p.2) pairs with cols | _ | _ <;>
    rw [hm] at h <;> simp only [PResult.map] at h <;> cases h
  obtain ⟨h1, h2⟩ := mapPR_ok_mem hm
  constructor
  · intro c hc
    obtain ⟨p, hp, hfp⟩ := h1 c ((sortByIdx_mem c cols).mp hc)
    obtain ⟨e1, e2, _⟩ := colParColumn_ok hfp
    exact ⟨p, hp, e1, e2⟩
  · intro p hp
    obtain ⟨c, hc, hfp⟩ := h2 p hp
    obtain ⟨e1, e2, _⟩ := colParColumn_ok hfp
    exact ⟨c, (sortByIdx_mem c cols).mpr hc, e1, e2⟩

/-- Claim C9, witness: a concrete `int` column whose status has bit 0
clear, hence `nullable = true`. -/
theorem c9_witness :
    ∃ c ∈ (Schema.mk [⟨3, .Int, "c", true, false⟩]).columns,
      c.idx = (colW, tyW).1.col_id ∧
      c.nullable = !statusContains (colW, tyW).1.status
        ColParStatus.NULLABLE :=
  (c9_nullable_negation [(colW, tyW)] ⟨[⟨3, .Int, "c", true, false⟩]⟩
    (by decide)).2 (colW, tyW) (by decide)


lemma PResult.map_map {α β γ : Type} (f : α → β) (g : β → γ)
    (x : PResult α) : (x.map f).map g = x.map (fun a => g (f a)) := by
  cases x <;> rfl

lemma taggedGo_erase (p : RawPage) :
    ∀ fuel idx, (localRecordsTaggedGo p idx fuel).map (List.map Prod.snd) =
      localRecordsGo p idx fuel := by
  intro fuel
  induction fuel with
  | zero => intro idx; rfl
  | succ m ih =>
    intro idx
    unfold localRecordsTaggedGo localRecordsGo
    rcases hr : p.record idx with r | _ | _
    · rcases r with _ | r
      · rfl
      · dsimp only
        have ihx := ih (idx + 1)
        rcases ht : localRecordsTaggedGo p (idx + 1) m with rt | _ | _ <;>
          rw [ht] at ihx <;> rw [← ihx] <;> simp [PResult.map]
    · rfl
    · rfl


lemma mapPR_tag_erase (s : Schema) (j i : Nat) :
    ∀ recsT : List (Nat × Record),
      (mapPR (fun sr =>
          (s.parse sr.2).map (fun row => ((j, i, sr.1), row))) recsT).map
        (List.map Prod.snd) =
      mapPR (fun r => s.parse r) (recsT.map Prod.snd) := by
  intro recsT
  induction recsT with
  | nil => rfl
  | cons sr rest ih =>
    rcases hm : mapPR (fun sr =>
        (s.parse sr.2).map (fun row => ((j, i, sr.1), row))) rest
      with rt | _ | _ <;> rw [hm] at ih <;>
      simp only [mapPR, List.map_cons] <;> rw [hm] <;>
      rcases hp : s.parse sr.2 with row | _ | _ <;>
      simp only [PResult.map] at ih ⊢ <;> try rfl
    all_goals rw [← ih] <;> simp [PResult.map]


lemma pageRowsTagged_erase (s : Schema) (j i : Nat) (p : RawPage) :
    (pageRowsTagged s j i p).map (List.map Prod.snd) = pageRows s p := by
  unfold pageRowsTagged pageRows RawPage.local_records
  rw [← taggedGo_erase p p.header.slot_count 0]
  rcases ht : localRecordsTaggedGo p 0 p.header.slot_count
    with rt | _ | _ <;> simp only [PResult.map] <;> try rfl
  exact mapPR_tag_erase s j i rt

lemma flatMapPR_map_list {α β γ : Type} (φ : β → γ)
    (f : α → PResult (List β)) (g : α → PResult (List γ))
    (h : ∀ a, (f a).map (List.map φ) = g a) :
    ∀ l, (flatMapPR f l).map (List.map φ) = flatMapPR g l := by
  intro l
  induction l with
  | nil => rfl
  | cons a rest ih =>
    rcases hr : flatMapPR f rest with cs | _ | _ <;> rw [hr] at ih <;>
      unfold flatMapPR <;> rw [← h a, hr] <;>
      rcases hf : f a with bs | _ | _ <;>
      simp only [PResult.map] at ih ⊢ <;> try rfl
    all_goals rw [← ih] <;> simp [PResult.map]

lemma flatMapPR_filterMap {α β γ : Type} (g : α → Option β)
    (f : β → PResult (List γ)) :
    ∀ l : List α,
      flatMapPR f (l.filterMap g) =
      flatMapPR (fun a =>
        match g a with
        | none => .ok []
        | some b => f b) l := by
  intro l
  induction l with
  | nil => rfl
  | cons a rest ih =>
    rcases hg : g a with _ | b
    · rw [show (a :: rest).filterMap g = rest.filterMap g from by
        simp [List.filterMap_cons, hg]]
      rw [ih]
      conv_rhs => unfold flatMapPR
      rw [hg]
      rcases hr : flatMapPR (fun a =>
        match g a with
        | none => .ok []
        | some b => f b) rest with bs | _ | _ <;>
        simp [PResult.map]
    · rw [show (a :: rest).filterMap g = b :: rest.filterMap g from by
        simp [List.filterMap_cons, hg]]
      unfold flatMapPR
      rw [hg, ih]


lemma mapPR_ok_forall2 {α β : Type} {f : α → PResult β} :
    ∀ {l : List α} {l2 : List β}, mapPR f l = .ok l2 →
      List.Forall₂ (fun a b => f a = .ok b) l l2 := by
  intro l
  induction l with
  | nil =>
    intro l2 h
    cases h
    exact List.Forall₂.nil
  | cons a rest ih =>
    intro l2 h
    unfold mapPR at h
    split at h
    · cases h
    · cases h
    · rename_i b hb
      rcases hr : mapPR f rest with tail | _ | _ <;> rw [hr] at h <;>
        simp only [PResult.map] at h <;> cases h
      exact List.Forall₂.cons hb (ih hr)

lemma forall2_mem_right {α β : Type} {R : α → β → Prop} :
    ∀ {l1 : List α} {l2 : List β}, List.Forall₂ R l1 l2 →
      ∀ b ∈ l2, ∃ a ∈ l1, R a b := by
  intro l1 l2 h
  induction h with
  | nil => intro b hb; cases hb
  | cons hab htail ih =>
    intro b hb
    rcases List.mem_cons.mp hb with rfl | hb
    · exact ⟨_, by simp, hab⟩
    · obtain ⟨a, ha, hr⟩ := ih b hb
      exact ⟨a, by simp [ha], hr⟩

lemma forall2_pairwise {α β : Type} {R : α → β → Prop} {S : α → α → Prop}
    {T : β → β → Prop}
    (hcompat : ∀ a a' b b', R a b → R a' b' → S a a' → T b b') :
    ∀ {l1 : List α} {l2 : List β}, List.Forall₂ R l1 l2 →
      List.Pairwise S l1 → List.Pairwise T l2 := by
  intro l1 l2 h
  induction h with
  | nil => intro; exact .nil
  | cons hab htail ih =>
    intro hp
    rcases List.pairwise_cons.mp hp with ⟨ha, hp2⟩
    refine List.Pairwise.cons ?_ (ih hp2)
    intro b2 hb2
    obtain ⟨a2, ha2, hr2⟩ := forall2_mem_right htail b2 hb2
    exact hcompat _ _ _ _ hab hr2 (ha a2 ha2)

lemma taggedGo_slots (p : RawPage) :
    ∀ fuel idx rt, localRecordsTaggedGo p idx fuel = .ok rt →
      List.Pairwise (fun x y => x.1 < y.1) rt ∧ ∀ x ∈ rt, idx ≤ x.1 := by
  intro fuel
  induction fuel with
  | zero =>
    intro idx rt h
    cases h
    simp
  | succ m ih =>
    intro idx rt h
    unfold localRecordsTaggedGo at h
    split at h
    · cases h
    · cases h
      simp
    · cases h
      simp
    · rename_i r hr
      rcases ht : localRecordsTaggedGo p (idx + 1) m with rt2 | _ | _ <;>
        rw [ht] at h <;> simp only [PResult.map] at h <;> cases h
      obtain ⟨hp, hge⟩ := ih (idx + 1) rt2 ht
      refine ⟨List.Pairwise.cons ?_ hp, ?_⟩
      · intro y hy
        exact lt_of_lt_of_le (Nat.lt_succ_self idx) (hge y hy)
      · intro x hx
        rcases List.mem_cons.mp hx with rfl | hx
        · exact le_refl idx
        · exact le_trans (Nat.le_succ idx) (hge x hx)

lemma tagR_fst {s : Schema} {j i : Nat} {sr : Nat × Record}
    {x : (Nat × Nat × Nat) × Row}
    (h : (s.parse sr.2).map (fun row => ((j, i, sr.1), row)) = .ok x) :
    x.1 = (j, i, sr.1) := by
  rcases hp : s.parse sr.2 with row | _ | _ <;> rw [hp] at h <;>
    simp only [PResult.map] at h <;> cases h
  rfl

lemma pageRowsTagged_tags {s : Schema} {j i : Nat} {p : RawPage}
    {lp : List ((Nat × Nat × Nat) × Row)}
    (h : pageRowsTagged s j i p = .ok lp) :
    (∀ x ∈ lp, x.1.1 = j ∧ x.1.2.1 = i) ∧
    List.Pairwise (fun x y => tripleLt x.1 y.1) lp := by
  unfold pageRowsTagged at h
  split at h
  · cases h
  · cases h
  · rename_i recs hrecs
    have hf2 := mapPR_ok_forall2 h
    obtain ⟨hpair, _⟩ := taggedGo_slots p p.header.slot_count 0 recs hrecs
    constructor
    · intro x hx
      obtain ⟨sr, _, hfx⟩ := forall2_mem_right hf2 x hx
      rw [tagR_fst hfx]
      exact ⟨rfl, rfl⟩
    · refine forall2_pairwise ?_ hf2 hpair
      intro sr sr2 x x2 hrx hrx2 hlt
      rw [tripleLt, tagR_fst hrx, tagR_fst hrx2]
      exact Or.inr ⟨rfl, Or.inr ⟨rfl, hlt⟩⟩

lemma flatMapPR_ok_mem {α β : Type} {f : α → PResult (List β)} :
    ∀ {l : List α} {res : List β}, flatMapPR f l = .ok res →
      ∀ b ∈ res, ∃ a ∈ l, ∃ s, f a = .ok s ∧ b ∈ s := by
  intro l
  induction l with
  | nil =>
    intro res h b hb
    cases h
    cases hb
  | cons a rest ih =>
    intro res h b hb
    unfold flatMapPR at h
    split at h
    · cases h
    · cases h
    · rename_i bs hbs
      rcases hr : flatMapPR f rest with cs | _ | _ <;> rw [hr] at h <;>
        simp only [PResult.map] at h <;> cases h
      rcases List.mem_append.mp hb with hb1 | hb2
      · exact ⟨a, by simp, bs, hbs, hb1⟩
      · obtain ⟨a2, ha2, s2, hs2, hbin⟩ := ih hr b hb2
        exact ⟨a2, by simp [ha2], s2, hs2, hbin⟩

lemma flatMapPR_pairwise {α β : Type} {T : β → β → Prop}
    {f : α → PResult (List β)} :
    ∀ {l : List α} {res : List β}, flatMapPR f l = .ok res →
      (∀ a ∈ l, ∀ s, f a = .ok s → List.Pairwise T s) →
      List.Pairwise (fun a a2 => ∀ s s2, f a = .ok s → f a2 = .ok s2 →
        ∀ b ∈ s, ∀ b2 ∈ s2, T b b2) l →
      List.Pairwise T res := by
  intro l
  induction l with
  | nil =>
    intro res h _ _
    cases h
    exact .nil
  | cons a rest ih =>
    intro res h hin hcross
    unfold flatMapPR at h
    split at h
    · cases h
    · cases h
    · rename_i bs hbs
      rcases hr : flatMapPR f rest with cs | _ | _ <;> rw [hr] at h <;>
        simp only [PResult.map] at h <;> cases h
      rcases List.pairwise_cons.mp hcross with ⟨hc1, hc2⟩
      refine List.pairwise_append.mpr ⟨hin a (by simp) bs hbs, ?_, ?_⟩
      · exact ih hr (fun x hx => hin x (by simp [hx])) hc2
      · intro b hb b2 hb2
        obtain ⟨a2, ha2, s2, hs2, hbin⟩ := flatMapPR_ok_mem hr b2 hb2
        exact hc1 a2 ha2 bs s2 hbs hs2 b hb b2 hbin


lemma perFile_tag {t : Table} {pml j : Nat}
    {s : List ((Nat × Nat × Nat) × Row)}
    (hs : flatMapPR (fun i =>
        match scanSelect t pml j i with
        | none => .ok []
        | some page => pageRowsTagged t.schema j i page)
      (List.range (t.page_provider.num_pages j)) = .ok s) :
    ∀ b ∈ s, b.1.1 = j := by
  intro b hb
  obtain ⟨i, _, s2, hs2, hbin⟩ := flatMapPR_ok_mem hs b hb
  rcases hsel : scanSelect t pml j i with _ | page <;> rw [hsel] at hs2
  · cases hs2
    cases hbin
  · exact ((pageRowsTagged_tags hs2).1 b hbin).1

/-- Claim C5: the degraded scan equals, row for row, the specification-side
scan (files in `file_ids()` order, pages ascending, matching pages only,
slots ascending) — and when `file_ids()` is ascending, the provenance
triples `(file_id, page_id, slot)` of the emitted rows are strictly
lexicographically increasing. -/
theorem c5_scan_db_degraded (t : Table) :
    ((scan_db_spec t).map (List.map Prod.snd) = t.scan_db) ∧
    (List.Pairwise (· < ·) t.page_provider.file_ids →
      ∀ l, scan_db_spec t = .ok l →
        List.Pairwise tripleLt (l.map Prod.fst)) := by
  constructor
  · unfold scan_db_spec Table.scan_db
    rcases t.partition_pointer.head? with _ | fp
    · rfl
    · dsimp only
      rcases t.page_provider.get fp with _ | fpage
      · rfl
      · dsimp only
        apply flatMapPR_map_list
        intro j
        rw [flatMapPR_filterMap (scanSelect t fpage.header.p_min_len j)
          (pageRows t.schema)]
        apply flatMapPR_map_list
        intro i
        rcases hsel : scanSelect t fpage.header.p_min_len j i with _ | page
        · rfl
        · exact pageRowsTagged_erase t.schema j i page
  · intro hfiles l hl
    unfold scan_db_spec at hl
    rcases hh : t.partition_pointer.head? with _ | fp <;> rw [hh] at hl
    · cases hl
    · dsimp only at hl
      rcases hg : t.page_provider.get fp with _ | fpage <;> rw [hg] at hl
      · cases hl
      · dsimp only at hl
        rw [List.pairwise_map]
        apply flatMapPR_pairwise hl
        · intro j _ s hs
          apply flatMapPR_pairwise hs
          · intro i _ s2 hs2
            rcases hsel : scanSelect t fpage.header.p_min_len j i
              with _ | page <;> rw [hsel] at hs2
            · cases hs2
              exact .nil
            · exact (pageRowsTagged_tags hs2).2
          · refine List.Pairwise.imp ?_ (List.pairwise_lt_range _)
            intro i i2 hii s2 s3 hs2 hs3 b hb b2 hb2
            rcases hsel : scanSelect t fpage.header.p_min_len j i
              with _ | page <;> rw [hsel] at hs2
            · cases hs2
              cases hb
            rcases hsel2 : scanSelect t fpage.header.p_min_len j i2
              with _ | page2 <;> rw [hsel2] at hs3
            · cases hs3
              cases hb2
            obtain ⟨hbj, hbi⟩ := (pageRowsTagged_tags hs2).1 b hb
            obtain ⟨hbj2, hbi2⟩ := (pageRowsTagged_tags hs3).1 b2 hb2
            exact Or.inr ⟨hbj.trans hbj2.symm,
              Or.inl (by rw [hbi, hbi2]; exact hii)⟩
        · refine List.Pairwise.imp ?_ hfiles
          intro j j2 hjj s s2 hs hs2 b hb b2 hb2
          have h1 := perFile_tag hs b hb
          have h2 := perFile_tag hs2 b2 hb2
          exact Or.inl (by rw [h1, h2]; exact hjj)

/-- Claim C5, witness: the theorem at the concrete two-file provider with
ascending `file_ids = [1, 2]`; the concrete spec scan succeeds (both pages
match but hold no records) and its provenance list is sorted. -/
theorem c5_witness :
    ((scan_db_spec tableW).map (List.map Prod.snd) = tableW.scan_db) ∧
    List.Pairwise tripleLt
      (([] : List ((Nat × Nat × Nat) × Row)).map Prod.fst) :=
  ⟨(c5_scan_db_degraded tableW).1,
   (c5_scan_db_degraded tableW).2 (by decide) [] (by decide)⟩

end Mdf
